import Mathlib

/-!
Verification of the opencord datagram transport (src/transport/server).

Shallow embedding conventions:
* Rust `u8`/`u16`/`u64` values are `Nat`; where the source performs a
  narrowing cast (`as u8`, `as u16`) we write the explicit `% 256` /
  `% 65536`.  `f64` quantities (loss rate, srtt) are modelled as `ℚ`.
* `bytes::Bytes` / `Vec<u8>` payloads are `List Nat`.
* `HashMap<K, V>` is an association list in which an insert replaces any
  previous binding of the same key; `HashSet` is a duplicate-free list.
* Fallible operations return `Option`.
* `Instant` / wall-clock times are `Nat` milliseconds passed in as
  explicit `now` parameters.
-/

/-! ## Data model (src/transport/server/src/packet.rs) -/

structure RtpBody where
  timestamp : Nat
  sequence_number : Nat
  frame_id : Nat
  fragment_number : Nat
  total_fragments : Nat
  data : List Nat
deriving DecidableEq

structure ProtectedPacketMeta where
  sequence_number : Nat
  timestamp : Nat
  frame_id : Nat
  fragment_number : Nat
  total_fragments : Nat
  data_length : Nat
deriving DecidableEq

structure FecBody where
  timestamp : Nat
  protected_packets : List ProtectedPacketMeta
  fec_data : List Nat
deriving DecidableEq

structure PingBody where
  timestamp : Nat
  data : List Nat
deriving DecidableEq

structure PongBody where
  timestamp : Nat
  data : List Nat
deriving DecidableEq

structure NackBody where
  missing_sequences : List Nat
deriving DecidableEq

inductive Packet where
  | ping : PingBody → Packet
  | pong : PongBody → Packet
  | nack : NackBody → Packet
  | fec : FecBody → Packet
  | rtp : RtpBody → Packet
deriving DecidableEq

/-! ## Loss estimator (src/transport/server/src/fec/loss_estimator.rs)

`sent_packets` is the `Vec<SentRecord>` (sequence, timestamp) in push order;
`nacked_set` models the `HashSet<u64>` as a duplicate-free list;
`smoothed_loss_rate` (an `f64` in the source) is a rational. -/

structure LossEstimator where
  sent_packets : List (Nat × Nat)
  nacked_set : List Nat
  smoothed_loss_rate : ℚ

def LossEstimator.new : LossEstimator := ⟨[], [], 0⟩

/-- `LossEstimator::update_smoothed_rate`. -/
def LossEstimator.update_smoothed_rate (le : LossEstimator) : LossEstimator :=
  if le.sent_packets = [] then le
  else
    let raw : ℚ := (le.nacked_set.length : ℚ) / (le.sent_packets.length : ℚ)
    if le.smoothed_loss_rate = 0 then { le with smoothed_loss_rate := raw }
    else if raw > le.smoothed_loss_rate then
      { le with smoothed_loss_rate := (8/10) * le.smoothed_loss_rate + (2/10) * raw }
    else
      { le with smoothed_loss_rate := (95/100) * le.smoothed_loss_rate + (5/100) * raw }

/-- `LossEstimator::prune`: drop sent records older than the 2 s window and
remove their sequences from the nacked set. `cutoff = now - 2000` uses
truncated `Nat` subtraction (the `Instant` arithmetic in the source is only
meaningful once the process is 2 s old). -/
def LossEstimator.prune (now : Nat) (le : LossEstimator) : LossEstimator :=
  let cutoff := now - 2000
  let removed := (le.sent_packets.filter (fun p => p.2 < cutoff)).map (·.1)
  { le with
    sent_packets := le.sent_packets.filter (fun p => ¬ p.2 < cutoff),
    nacked_set := le.nacked_set.filter (fun s => ¬ s ∈ removed) }

/-- `HashSet::insert` on the duplicate-free list model. -/
def hashSetInsert (s : Nat) (l : List Nat) : List Nat :=
  if s ∈ l then l else s :: l

/-- `LossEstimator::record_packet_sent`: push, prune, update. -/
def LossEstimator.record_packet_sent (now seq : Nat) (le : LossEstimator) :
    LossEstimator :=
  (({ le with sent_packets := le.sent_packets ++ [(seq, now)] }).prune now).update_smoothed_rate

/-- `LossEstimator::record_nack_received`: mark each sequence that is in the
current sent window, then update.  NOTE: the source does *not* prune here;
the `now` parameter is unused and kept only so that the claim about
2 s-window pruning can be stated against this operation. -/
def LossEstimator.record_nack_received (_now : Nat) (seqs : List Nat)
    (le : LossEstimator) : LossEstimator :=
  let window_seqs := le.sent_packets.map (·.1)
  let nacked := seqs.foldl
    (fun acc s => if s ∈ window_seqs then hashSetInsert s acc else acc)
    le.nacked_set
  ({ le with nacked_set := nacked }).update_smoothed_rate

/-- `LossEstimator::get_stats().loss_rate`. -/
def LossEstimator.loss_rate (le : LossEstimator) : ℚ := le.smoothed_loss_rate

/-! ## Packet pacer (src/transport/server/src/pacing/packet_pacer.rs) -/

structure PacketPacer where
  queue : List (List Nat)
  queue_bytes : Nat

def PacketPacer.new : PacketPacer := ⟨[], 0⟩

def PacketPacer.enqueue (data : List Nat) (p : PacketPacer) : PacketPacer :=
  { queue := p.queue ++ [data], queue_bytes := p.queue_bytes + data.length }

/-- `target_intervals = MIN_INTERVALS + t * (MAX_INTERVALS - MIN_INTERVALS)`
with `t = (loss_rate / LOSS_THRESHOLD).min(1.0)`. -/
def targetIntervals (loss : ℚ) : ℚ :=
  3 + min (loss / (10/100)) 1 * (6 - 3)

/-- `PacketPacer::get_budget`; the `as usize` cast of the `f64` quotient is
the floor (saturating at 0 for negative values). -/
def PacketPacer.get_budget (le : LossEstimator) (p : PacketPacer) : Nat :=
  let adaptive_budget := (⌊(p.queue_bytes : ℚ) / targetIntervals le.loss_rate⌋).toNat
  max adaptive_budget 10000

/-- The `while let Some(front)` pop loop of `PacketPacer::drain`. -/
def drainLoop (budget : Nat) (sent : Nat) : List (List Nat) → List (List Nat) × List (List Nat)
  | [] => ([], [])
  | d :: q =>
    if budget < sent + d.length then ([], d :: q)
    else
      let r := drainLoop budget (sent + d.length) q
      (d :: r.1, r.2)

/-- Total byte length of a list of datagrams. -/
def sumLens (q : List (List Nat)) : Nat := (q.map List.length).sum

/-- `PacketPacer::drain`: returns the emitted packets and the new pacer. -/
def PacketPacer.drain (le : LossEstimator) (p : PacketPacer) :
    List (List Nat) × PacketPacer :=
  if p.queue = [] then ([], p)
  else
    let budget := p.get_budget le
    let r := drainLoop budget 0 p.queue
    (r.1, { queue := r.2, queue_bytes := p.queue_bytes - sumLens r.1 })

def PacketPacer.reset (_p : PacketPacer) : PacketPacer := ⟨[], 0⟩

/-! ### Pacer lemmas -/

lemma drainLoop_append_eq (budget : Nat) :
    ∀ (q : List (List Nat)) (sent : Nat),
      (drainLoop budget sent q).1 ++ (drainLoop budget sent q).2 = q := by
  intro q
  induction q with
  | nil => intro sent; simp [drainLoop]
  | cons d rest ih =>
    intro sent
    by_cases h : budget < sent + d.length
    · simp [drainLoop, h]
    · simp [drainLoop, h, ih]

lemma drainLoop_sum_le (budget : Nat) :
    ∀ (q : List (List Nat)) (sent : Nat), sent ≤ budget →
      sent + sumLens (drainLoop budget sent q).1 ≤ budget := by
  intro q
  induction q with
  | nil => intro sent h; simpa [drainLoop, sumLens] using h
  | cons d rest ih =>
    intro sent h
    by_cases hfit : budget < sent + d.length
    · simpa [drainLoop, hfit, sumLens] using h
    · have h' : sent + d.length ≤ budget := Nat.le_of_not_lt hfit
      have := ih (sent + d.length) h'
      simp only [drainLoop, hfit, if_false, sumLens, List.map_cons, List.sum_cons] at *
      omega

lemma sumLens_append (a b : List (List Nat)) :
    sumLens (a ++ b) = sumLens a + sumLens b := by
  simp [sumLens]

/-- C8: at every pacing drain, the total byte length of the returned packets
is at most `max (queue_bytes / target_intervals) 10000`, where
`target_intervals = 3 + min (loss_rate / 0.10) 1 * (6 - 3)` always lies in
`[3, 6]`.  (`loss_rate` is nonnegative: it is the estimator's smoothed rate,
see `smoothed_loss_rate_nonneg`.) -/
theorem pacer_budget_floor (le : LossEstimator) (p : PacketPacer)
    (hloss : 0 ≤ le.loss_rate) :
    (sumLens (p.drain le).1 : ℚ) ≤
        max ((p.queue_bytes : ℚ) / targetIntervals le.loss_rate) 10000
    ∧ 3 ≤ targetIntervals le.loss_rate ∧ targetIntervals le.loss_rate ≤ 6 := by
  have h0t : 0 ≤ min (le.loss_rate / (10/100)) 1 :=
    le_min (by positivity) zero_le_one
  have ht1 : min (le.loss_rate / (10/100)) 1 ≤ 1 := min_le_right _ _
  have h3 : 3 ≤ targetIntervals le.loss_rate := by
    unfold targetIntervals; nlinarith
  have h6 : targetIntervals le.loss_rate ≤ 6 := by
    unfold targetIntervals; nlinarith
  refine ⟨?_, h3, h6⟩
  have htpos : 0 < targetIntervals le.loss_rate := lt_of_lt_of_le (by norm_num) h3
  have hbud : ((p.get_budget le : Nat) : ℚ) ≤
      max ((p.queue_bytes : ℚ) / targetIntervals le.loss_rate) 10000 := by
    unfold PacketPacer.get_budget
    have hfl : (0:ℤ) ≤ ⌊(p.queue_bytes : ℚ) / targetIntervals le.loss_rate⌋ :=
      Int.floor_nonneg.mpr (by positivity)
    have hle : ((⌊(p.queue_bytes : ℚ) / targetIntervals le.loss_rate⌋.toNat : Nat) : ℚ) ≤
        (p.queue_bytes : ℚ) / targetIntervals le.loss_rate := by
      rw [← Int.cast_natCast, Int.toNat_of_nonneg hfl]
      exact_mod_cast Int.floor_le _
    calc ((max ⌊(p.queue_bytes : ℚ) / targetIntervals le.loss_rate⌋.toNat 10000 : Nat) : ℚ)
        = max ((⌊(p.queue_bytes : ℚ) / targetIntervals le.loss_rate⌋.toNat : Nat) : ℚ)
            ((10000 : Nat) : ℚ) := by push_cast; rfl
      _ ≤ max ((p.queue_bytes : ℚ) / targetIntervals le.loss_rate) 10000 := by
          apply max_le_max hle; norm_num
  unfold PacketPacer.drain
  by_cases hq : p.queue = []
  · simp only [hq, if_true]
    have h0 : (0:ℚ) ≤ max ((p.queue_bytes : ℚ) / targetIntervals le.loss_rate) 10000 :=
      le_max_of_le_right (by norm_num)
    simp only [sumLens, List.map_nil, List.sum_nil, Nat.cast_zero]
    exact h0
  · simp only [hq, if_false]
    have hsum : sumLens (drainLoop (p.get_budget le) 0 p.queue).1 ≤ p.get_budget le := by
      have := drainLoop_sum_le (p.get_budget le) p.queue 0 (Nat.zero_le _)
      omega
    calc (sumLens (drainLoop (p.get_budget le) 0 p.queue).1 : ℚ)
        ≤ ((p.get_budget le : Nat) : ℚ) := by exact_mod_cast hsum
      _ ≤ _ := hbud

/-- Witness for `pacer_budget_floor` at a concrete lossless state. -/
theorem pacer_budget_floor_witness :
    (0 : ℚ) ≤ LossEstimator.new.loss_rate ∧
    ((sumLens ((PacketPacer.mk [[1, 2, 3]] 3).drain LossEstimator.new).1 : ℚ) ≤
        max (((PacketPacer.mk [[1, 2, 3]] 3).queue_bytes : ℚ) /
          targetIntervals LossEstimator.new.loss_rate) 10000
      ∧ 3 ≤ targetIntervals LossEstimator.new.loss_rate
      ∧ targetIntervals LossEstimator.new.loss_rate ≤ 6) :=
  ⟨by norm_num [LossEstimator.new, LossEstimator.loss_rate],
   pacer_budget_floor LossEstimator.new (PacketPacer.mk [[1, 2, 3]] 3)
     (by norm_num [LossEstimator.new, LossEstimator.loss_rate])⟩

/-- C9: the pacer's `queue_bytes` always equals the total length of the
queued datagrams; `enqueue`, `drain` and `reset` preserve this, and `drain`
removes exactly the packets it returns from the front of the FIFO queue
(`returned ++ remaining = original queue`). -/
theorem pacer_queue_bytes_invariant (p : PacketPacer) (d : List Nat)
    (le : LossEstimator) (hinv : p.queue_bytes = sumLens p.queue) :
    (p.enqueue d).queue_bytes = sumLens (p.enqueue d).queue
    ∧ (p.drain le).2.queue_bytes = sumLens (p.drain le).2.queue
    ∧ (p.drain le).1 ++ (p.drain le).2.queue = p.queue
    ∧ p.reset.queue_bytes = sumLens p.reset.queue := by
  refine ⟨?_, ?_, ?_, ?_⟩
  · simp [PacketPacer.enqueue, sumLens, hinv]
  · unfold PacketPacer.drain
    by_cases hq : p.queue = []
    · simp [hq, hinv]
    · simp only [hq, if_false]
      have happ := drainLoop_append_eq (p.get_budget le) p.queue 0
      have : sumLens p.queue =
          sumLens (drainLoop (p.get_budget le) 0 p.queue).1 +
          sumLens (drainLoop (p.get_budget le) 0 p.queue).2 := by
        conv_lhs => rw [← happ]
        exact sumLens_append _ _
      simp only [hinv, this]
      omega
  · unfold PacketPacer.drain
    by_cases hq : p.queue = []
    · simp [hq]
    · simp only [hq, if_false]
      exact drainLoop_append_eq (p.get_budget le) p.queue 0
  · simp [PacketPacer.reset, sumLens]

/-- Witness for `pacer_queue_bytes_invariant` on a concrete two-packet queue. -/
theorem pacer_queue_bytes_invariant_witness :
    (PacketPacer.mk [[1], [2, 3]] 3).queue_bytes =
        sumLens (PacketPacer.mk [[1], [2, 3]] 3).queue
    ∧ (((PacketPacer.mk [[1], [2, 3]] 3).enqueue [9]).queue_bytes =
          sumLens ((PacketPacer.mk [[1], [2, 3]] 3).enqueue [9]).queue
        ∧ ((PacketPacer.mk [[1], [2, 3]] 3).drain LossEstimator.new).2.queue_bytes =
          sumLens ((PacketPacer.mk [[1], [2, 3]] 3).drain LossEstimator.new).2.queue
        ∧ ((PacketPacer.mk [[1], [2, 3]] 3).drain LossEstimator.new).1 ++
            ((PacketPacer.mk [[1], [2, 3]] 3).drain LossEstimator.new).2.queue =
            (PacketPacer.mk [[1], [2, 3]] 3).queue
        ∧ (PacketPacer.mk [[1], [2, 3]] 3).reset.queue_bytes =
          sumLens (PacketPacer.mk [[1], [2, 3]] 3).reset.queue) :=
  ⟨by simp [sumLens],
   pacer_queue_bytes_invariant (PacketPacer.mk [[1], [2, 3]] 3) [9]
     LossEstimator.new (by simp [sumLens])⟩

/-! ## Adaptive FEC encoder (src/transport/server/src/fec/adaptive_encoder.rs)

Only the two static functions the claims are about are modelled
(`generate_fec_packet`, `recover_packet`); the slot/interleave state does not
enter any claim. -/

/-- XOR the bytes of `d` into `acc` at indices below `acc.length`
(`for (i, &byte) in packet.data.iter().enumerate() { if i < acc.len() {
acc[i] ^= byte } }`; in `generate_fec_packet` the bound check is absent but
every payload is no longer than the accumulator there). -/
def xorInto : List Nat → List Nat → List Nat
  | acc, [] => acc
  | [], _ => []
  | a :: acc, b :: d => (a ^^^ b) :: xorInto acc d

/-- The `ProtectedPacketMeta` recorded for one protected packet;
`data_length` is `packet.data.len() as u16`. -/
def metaOf (p : RtpBody) : ProtectedPacketMeta :=
  { sequence_number := p.sequence_number, timestamp := p.timestamp,
    frame_id := p.frame_id, fragment_number := p.fragment_number,
    total_fragments := p.total_fragments,
    data_length := p.data.length % 65536 }

/-- `max_len`: `packets.iter().map(|p| p.data.len()).max().unwrap_or(0)`. -/
def maxLenOf (packets : List RtpBody) : Nat :=
  packets.foldr (fun p m => max p.data.length m) 0

/-- `AdaptiveFecEncoder::generate_fec_packet`. -/
def AdaptiveFecEncoder.generate_fec_packet (packets : List RtpBody) :
    Option FecBody :=
  if packets = [] then none
  else if maxLenOf packets = 0 then none
  else
    some { timestamp := ((packets.getLast?).map RtpBody.timestamp).getD 0,
           protected_packets := packets.map metaOf,
           fec_data := packets.foldl (fun acc p => xorInto acc p.data)
                         (List.replicate (maxLenOf packets) 0) }

/-- `AdaptiveFecEncoder::recover_packet`.  The length guard uses truncated
`Nat` subtraction; for `protected_packets = []` the observable result
(`none`) agrees with the release-mode wrapping subtraction of the source. -/
def AdaptiveFecEncoder.recover_packet (fec_packet : FecBody)
    (available_packets : List RtpBody) : Option RtpBody :=
  if available_packets.length ≠ fec_packet.protected_packets.length - 1 then
    none
  else
    match fec_packet.protected_packets.find?
        (fun meta => !(available_packets.any
            (fun p => p.sequence_number == meta.sequence_number))) with
    | none => none
    | some missing_meta =>
      let recovered_data := available_packets.foldl
          (fun acc p => xorInto acc p.data) fec_packet.fec_data
      some { timestamp := missing_meta.timestamp,
             sequence_number := missing_meta.sequence_number,
             frame_id := missing_meta.frame_id,
             fragment_number := missing_meta.fragment_number,
             total_fragments := missing_meta.total_fragments,
             data := recovered_data.take missing_meta.data_length }

/-- C4 (amended): `recover_packet` returns a packet iff
`available.length = protected.length - 1` *and* some protected entry's
sequence number does not appear among the available packets (the original
claim's "every available sequence appears in `fec.protected`" is neither
necessary nor sufficient, see `recover_packet_iff_cex`). -/
theorem recover_packet_isSome_iff (fec : FecBody) (available : List RtpBody) :
    (AdaptiveFecEncoder.recover_packet fec available).isSome = true ↔
      (available.length = fec.protected_packets.length - 1 ∧
       ∃ m ∈ fec.protected_packets,
         ∀ p ∈ available, p.sequence_number ≠ m.sequence_number) := by
  unfold AdaptiveFecEncoder.recover_packet
  by_cases hlen : available.length = fec.protected_packets.length - 1
  · rw [if_neg (by simp [hlen])]
    cases hf : fec.protected_packets.find?
        (fun meta => !(available.any
            (fun p => p.sequence_number == meta.sequence_number))) with
    | none =>
      simp only [Option.isSome_none, Bool.false_eq_true, false_iff]
      rintro ⟨-, m, hm, hall⟩
      have hpred := List.find?_eq_none.mp hf m hm
      simp only [Bool.not_eq_true', List.any_eq_true, beq_iff_eq,
        Bool.not_eq_false] at hpred
      obtain ⟨p, hp, hpe⟩ := hpred
      exact hall p hp hpe
    | some m =>
      simp only [Option.isSome_some, true_iff]
      refine ⟨hlen, m, List.mem_of_find?_eq_some hf, ?_⟩
      have hpred := List.find?_some hf
      simp only [Bool.not_eq_true', List.any_eq_false, beq_iff_eq] at hpred
      intro p hp
      exact hpred p hp
  · rw [if_pos (by simpa using hlen)]
    simp only [Option.isSome_none, Bool.false_eq_true, false_iff]
    rintro ⟨h, -⟩
    exact hlen h

/-- C4 counterexample to the claim as stated: with two protected entries
sharing one sequence number and that packet available, the right-hand side
of the claimed equivalence holds (lengths match and every available
sequence appears among the protected entries) yet `recover_packet` returns
no packet. -/
theorem recover_packet_iff_cex :
    (AdaptiveFecEncoder.recover_packet
        (FecBody.mk 0 [ProtectedPacketMeta.mk 0 0 0 0 1 1,
                       ProtectedPacketMeta.mk 0 0 0 0 1 1] [5])
        [RtpBody.mk 0 0 0 0 1 [1]]) = none
    ∧ [RtpBody.mk 0 0 0 0 1 [1]].length =
        [ProtectedPacketMeta.mk 0 0 0 0 1 1,
         ProtectedPacketMeta.mk 0 0 0 0 1 1].length - 1
    ∧ ([RtpBody.mk 0 0 0 0 1 [1]].all
        (fun p => [ProtectedPacketMeta.mk 0 0 0 0 1 1,
                   ProtectedPacketMeta.mk 0 0 0 0 1 1].any
          (fun m => m.sequence_number == p.sequence_number))) = true := by
  decide

/-! ### XOR recovery lemmas for C1 -/

/-- XOR of a list of bytes. -/
def xorAll : List Nat → Nat
  | [] => 0
  | a :: l => a ^^^ xorAll l

lemma le_maxLenOf (packets : List RtpBody) (p : RtpBody) (hp : p ∈ packets) :
    p.data.length ≤ maxLenOf packets := by
  induction packets with
  | nil => cases hp
  | cons a l ih =>
    rcases List.mem_cons.mp hp with h | h
    · simp [maxLenOf, h]
    · simp only [maxLenOf, List.foldr_cons]
      exact le_max_of_le_right (ih h)

lemma xorInto_length (acc d : List Nat) : (xorInto acc d).length = acc.length := by
  induction acc generalizing d with
  | nil => cases d <;> simp [xorInto]
  | cons a acc ih =>
    cases d with
    | nil => simp [xorInto]
    | cons b d => simp [xorInto, ih]

lemma xorInto_getD (acc d : List Nat) (i : Nat) (h : i < acc.length) :
    (xorInto acc d).getD i 0 = acc.getD i 0 ^^^ d.getD i 0 := by
  induction acc generalizing d i with
  | nil => simp at h
  | cons a acc ih =>
    cases d with
    | nil => simp [xorInto]
    | cons b d =>
      cases i with
      | zero => simp [xorInto]
      | succ i =>
        simp only [xorInto, List.getD_cons_succ]
        exact ih d i (by simpa using h)

lemma foldl_xorInto_length (ps : List (List Nat)) (acc : List Nat) :
    (ps.foldl (fun a d => xorInto a d) acc).length = acc.length := by
  induction ps generalizing acc with
  | nil => rfl
  | cons d ps ih =>
    simp only [List.foldl_cons]
    rw [ih, xorInto_length]

lemma foldl_xorInto_getD (ps : List (List Nat)) (acc : List Nat) (i : Nat)
    (h : i < acc.length) :
    (ps.foldl (fun a d => xorInto a d) acc).getD i 0 =
      acc.getD i 0 ^^^ xorAll (ps.map (fun d => d.getD i 0)) := by
  induction ps generalizing acc with
  | nil => simp [xorAll]
  | cons d ps ih =>
    have h' : i < (xorInto acc d).length := by rw [xorInto_length]; exact h
    simp only [List.foldl_cons, List.map_cons]
    rw [ih (xorInto acc d) h', xorInto_getD acc d i h]
    simp only [xorAll, Nat.xor_assoc]

lemma xorAll_append (X Y : List Nat) :
    xorAll (X ++ Y) = xorAll X ^^^ xorAll Y := by
  induction X with
  | nil => simp [xorAll]
  | cons x X ih => simp [xorAll, ih, Nat.xor_assoc]

lemma xor_left_comm (x y z : Nat) : x ^^^ (y ^^^ z) = y ^^^ (x ^^^ z) := by
  rw [← Nat.xor_assoc, Nat.xor_comm x y, Nat.xor_assoc]

lemma find?_append_of_false {α : Type} (p : α → Bool) (l₁ l₂ : List α)
    (h : ∀ x ∈ l₁, p x = false) :
    (l₁ ++ l₂).find? p = l₂.find? p := by
  induction l₁ with
  | nil => rfl
  | cons a l ih =>
    rw [List.cons_append, List.find?_cons, h a (by simp)]
    exact ih (fun x hx => h x (by simp [hx]))

lemma getD_replicate_zero (n i : Nat) :
    (List.replicate n (0 : Nat)).getD i 0 = 0 := by
  rcases Nat.lt_or_ge i n with h | h
  · rw [List.getD_eq_getElem _ _ (by simpa using h)]; simp
  · rw [List.getD_eq_default _ _ (by simpa using h)]

lemma foldl_xorInto_data (ps : List RtpBody) (acc : List Nat) :
    ps.foldl (fun a p => xorInto a p.data) acc =
      (ps.map RtpBody.data).foldl (fun a d => xorInto a d) acc := by
  induction ps generalizing acc with
  | nil => rfl
  | cons p ps ih => simp only [List.foldl_cons, List.map_cons]; exact ih _

/-- C1 (amended with the payload bound `< 65536` that the `u16`
`data_length` field forces, see `fec_single_erasure_cex`): for a group
`A ++ q :: B` of packets with pairwise distinct sequence numbers and some
non-empty payload, the generated FEC packet recovers the erased `q` from
the remaining packets, and recovery over a sub-group missing two or more
packets yields no packet. -/
theorem fec_single_erasure (A B : List RtpBody) (q : RtpBody)
    (_hlen2 : 2 ≤ (A ++ q :: B).length)
    (hnodup : ((A ++ q :: B).map RtpBody.sequence_number).Nodup)
    (hne : ∃ p ∈ A ++ q :: B, p.data ≠ [])
    (hshort : ∀ p ∈ A ++ q :: B, p.data.length < 65536) :
    ((AdaptiveFecEncoder.generate_fec_packet (A ++ q :: B)).bind
        (fun f => AdaptiveFecEncoder.recover_packet f (A ++ B))) = some q
    ∧ ∀ S : List RtpBody, S.Sublist (A ++ q :: B) →
        S.length + 2 ≤ (A ++ q :: B).length →
        ((AdaptiveFecEncoder.generate_fec_packet (A ++ q :: B)).bind
            (fun f => AdaptiveFecEncoder.recover_packet f S)) = none := by
  have hGne : (A ++ q :: B) ≠ [] := by simp
  have hml : ¬ maxLenOf (A ++ q :: B) = 0 := by
    obtain ⟨p, hp, hpd⟩ := hne
    have h1 := le_maxLenOf _ p hp
    have h2 : 0 < p.data.length := List.length_pos.mpr hpd
    omega
  have hgen : AdaptiveFecEncoder.generate_fec_packet (A ++ q :: B) =
      some { timestamp := (((A ++ q :: B).getLast?).map RtpBody.timestamp).getD 0,
             protected_packets := (A ++ q :: B).map metaOf,
             fec_data := (A ++ q :: B).foldl (fun acc p => xorInto acc p.data)
                           (List.replicate (maxLenOf (A ++ q :: B)) 0) } := by
    unfold AdaptiveFecEncoder.generate_fec_packet
    rw [if_neg hGne, if_neg hml]
  have hlenEq : (A ++ B).length = ((A ++ q :: B).map metaOf).length - 1 := by
    simp [List.length_append]
  have hqnot : ∀ p ∈ A ++ B, p.sequence_number ≠ q.sequence_number := by
    have h1 : (List.map RtpBody.sequence_number A ++
        q.sequence_number :: List.map RtpBody.sequence_number B).Nodup := by
      simpa using hnodup
    have h2 := List.nodup_middle.mp h1
    rw [List.nodup_cons] at h2
    intro p hp heq
    apply h2.1
    rw [← heq]
    rcases List.mem_append.mp hp with h | h
    · exact List.mem_append.mpr (Or.inl (List.mem_map_of_mem _ h))
    · exact List.mem_append.mpr (Or.inr (List.mem_map_of_mem _ h))
  have hfind : ((A ++ q :: B).map metaOf).find?
      (fun meta => !((A ++ B).any
          (fun p => p.sequence_number == meta.sequence_number))) = some (metaOf q) := by
    rw [List.map_append, List.map_cons]
    rw [find?_append_of_false]
    · have hq : ((A ++ B).any
          (fun p => p.sequence_number == (metaOf q).sequence_number)) = false := by
        simp only [List.any_eq_false, beq_iff_eq, metaOf]
        exact hqnot
      rw [List.find?_cons, hq]
      rfl
    · intro m hm
      obtain ⟨a, ha, rfl⟩ := List.mem_map.mp hm
      have hany : ((A ++ B).any
          (fun p => p.sequence_number == (metaOf a).sequence_number)) = true := by
        simp only [List.any_eq_true, beq_iff_eq, metaOf]
        exact ⟨a, List.mem_append.mpr (Or.inl ha), rfl⟩
      simp [hany]
  have hqmem : q ∈ A ++ q :: B := by simp
  have hqlen : q.data.length ≤ maxLenOf (A ++ q :: B) := le_maxLenOf _ q hqmem
  have hdl : (metaOf q).data_length = q.data.length := by
    simp [metaOf, Nat.mod_eq_of_lt (hshort q hqmem)]
  have hFlen : ((A ++ q :: B).foldl (fun acc p => xorInto acc p.data)
      (List.replicate (maxLenOf (A ++ q :: B)) 0)).length =
      maxLenOf (A ++ q :: B) := by
    rw [foldl_xorInto_data, foldl_xorInto_length, List.length_replicate]
  have hRlen : ((A ++ B).foldl (fun acc p => xorInto acc p.data)
      ((A ++ q :: B).foldl (fun acc p => xorInto acc p.data)
        (List.replicate (maxLenOf (A ++ q :: B)) 0))).length =
      maxLenOf (A ++ q :: B) := by
    rw [foldl_xorInto_data, foldl_xorInto_length, hFlen]
  have hdata : ((A ++ B).foldl (fun acc p => xorInto acc p.data)
      ((A ++ q :: B).foldl (fun acc p => xorInto acc p.data)
        (List.replicate (maxLenOf (A ++ q :: B)) 0))).take q.data.length =
      q.data := by
    apply List.ext_getElem
    · rw [List.length_take, hRlen]
      omega
    · intro i h1 h2
      rw [List.getElem_take]
      have hiR : i < ((A ++ B).foldl (fun acc p => xorInto acc p.data)
          ((A ++ q :: B).foldl (fun acc p => xorInto acc p.data)
            (List.replicate (maxLenOf (A ++ q :: B)) 0))).length := by
        rw [hRlen]; omega
      rw [← List.getD_eq_getElem _ 0 hiR, ← List.getD_eq_getElem _ 0 h2]
      rw [foldl_xorInto_data, foldl_xorInto_getD _ _ i (by rw [hFlen]; omega)]
      rw [foldl_xorInto_data ((A ++ q :: B)), foldl_xorInto_getD _ _ i
        (by rw [List.length_replicate]; omega)]
      rw [getD_replicate_zero, Nat.zero_xor]
      rw [List.map_append, List.map_cons, List.map_append]
      rw [List.map_append, List.map_append, List.map_cons]
      rw [xorAll_append, xorAll_append]
      show (xorAll _ ^^^ xorAll (_ :: _)) ^^^ (xorAll _ ^^^ xorAll _) = _
      rw [show xorAll (q.data.getD i 0 :: List.map (fun d => d.getD i 0)
        (List.map RtpBody.data B)) = q.data.getD i 0 ^^^ xorAll (List.map
          (fun d => d.getD i 0) (List.map RtpBody.data B)) from rfl]
      simp [Nat.xor_assoc, Nat.xor_comm, xor_left_comm, Nat.xor_self,
        Nat.xor_zero, Nat.zero_xor, Nat.xor_cancel_left, Nat.xor_cancel_right]
  constructor
  · rw [hgen]
    show AdaptiveFecEncoder.recover_packet _ (A ++ B) = some q
    unfold AdaptiveFecEncoder.recover_packet
    rw [if_neg (by simp [hlenEq])]
    simp only []
    rw [hfind]
    simp only []
    rw [hdl, hdata]
    simp [metaOf]
  · intro S hsub hslen
    rw [hgen]
    show AdaptiveFecEncoder.recover_packet _ S = none
    unfold AdaptiveFecEncoder.recover_packet
    rw [if_pos]
    simp only [List.length_map, List.length_append, List.length_cons] at hslen ⊢
    omega

/-- Witness for `fec_single_erasure` on a concrete two-packet group. -/
theorem fec_single_erasure_witness :
    ((AdaptiveFecEncoder.generate_fec_packet
        ([RtpBody.mk 7 0 3 0 2 [1, 2]] ++ RtpBody.mk 9 1 3 1 2 [3] :: [])).bind
      (fun f => AdaptiveFecEncoder.recover_packet f
        ([RtpBody.mk 7 0 3 0 2 [1, 2]] ++ []))) = some (RtpBody.mk 9 1 3 1 2 [3])
    ∧ ∀ S : List RtpBody, S.Sublist ([RtpBody.mk 7 0 3 0 2 [1, 2]] ++
        RtpBody.mk 9 1 3 1 2 [3] :: []) →
        S.length + 2 ≤ ([RtpBody.mk 7 0 3 0 2 [1, 2]] ++
          RtpBody.mk 9 1 3 1 2 [3] :: []).length →
        ((AdaptiveFecEncoder.generate_fec_packet
            ([RtpBody.mk 7 0 3 0 2 [1, 2]] ++ RtpBody.mk 9 1 3 1 2 [3] :: [])).bind
          (fun f => AdaptiveFecEncoder.recover_packet f S)) = none :=
  fec_single_erasure [RtpBody.mk 7 0 3 0 2 [1, 2]] [] (RtpBody.mk 9 1 3 1 2 [3])
    (by decide) (by decide) (by decide) (by decide)

lemma metaOf_mk (ts sn fid fn tf : Nat) (d : List Nat) :
    metaOf (RtpBody.mk ts sn fid fn tf d) =
      ProtectedPacketMeta.mk sn ts fid fn tf (d.length % 65536) := rfl

lemma maxLenOf_pair (p q : RtpBody) :
    maxLenOf [p, q] = max p.data.length (max q.data.length 0) := rfl

lemma meta_data_length_mk (a b c d e f : Nat) :
    (ProtectedPacketMeta.mk a b c d e f).data_length = f := rfl

lemma rtp_data_mk (ts sn fid fn tf : Nat) (d : List Nat) :
    (RtpBody.mk ts sn fid fn tf d).data = d := rfl

/-- C1 counterexample to the claim as stated: with a payload of 65536 bytes
the `u16` cast in `data_length` wraps to 0, so `recover_packet` truncates
the recovered payload to length 0 and the recovered packet differs from the
erased one, although the group satisfies all the original claim's
hypotheses (two packets, distinct sequence numbers, a non-empty payload). -/
theorem fec_single_erasure_cex :
    ((AdaptiveFecEncoder.generate_fec_packet
        [RtpBody.mk 0 0 0 0 2 [1], RtpBody.mk 0 1 0 1 2 (List.replicate 65536 1)]).bind
      (fun f => AdaptiveFecEncoder.recover_packet f [RtpBody.mk 0 0 0 0 2 [1]]))
      ≠ some (RtpBody.mk 0 1 0 1 2 (List.replicate 65536 1))
    ∧ 2 ≤ [RtpBody.mk 0 0 0 0 2 [1],
        RtpBody.mk 0 1 0 1 2 (List.replicate 65536 1)].length
    ∧ ([RtpBody.mk 0 0 0 0 2 [1],
        RtpBody.mk 0 1 0 1 2 (List.replicate 65536 1)].map
          RtpBody.sequence_number).Nodup
    ∧ ∃ p ∈ [RtpBody.mk 0 0 0 0 2 [1],
        RtpBody.mk 0 1 0 1 2 (List.replicate 65536 1)], p.data ≠ [] := by
  refine ⟨?_, le_refl _, ?_, ⟨RtpBody.mk 0 0 0 0 2 [1],
    List.mem_cons_self _ _, by decide⟩⟩
  case refine_2 =>
    show List.Nodup [0, 1]
    decide
  have hmeta : metaOf (RtpBody.mk 0 1 0 1 2 (List.replicate 65536 1)) =
      ProtectedPacketMeta.mk 1 0 0 1 2 0 := by
    rw [metaOf_mk, List.length_replicate, Nat.mod_self]
  have hml : ¬ maxLenOf [RtpBody.mk 0 0 0 0 2 [1],
      RtpBody.mk 0 1 0 1 2 (List.replicate 65536 1)] = 0 := by
    rw [maxLenOf_pair, rtp_data_mk, rtp_data_mk, List.length_replicate]
    decide
  have hgenc : AdaptiveFecEncoder.generate_fec_packet [RtpBody.mk 0 0 0 0 2 [1],
      RtpBody.mk 0 1 0 1 2 (List.replicate 65536 1)] = some
      { timestamp := (([RtpBody.mk 0 0 0 0 2 [1],
            RtpBody.mk 0 1 0 1 2 (List.replicate 65536 1)].getLast?).map
              RtpBody.timestamp).getD 0,
        protected_packets := [RtpBody.mk 0 0 0 0 2 [1],
          RtpBody.mk 0 1 0 1 2 (List.replicate 65536 1)].map metaOf,
        fec_data := [RtpBody.mk 0 0 0 0 2 [1],
          RtpBody.mk 0 1 0 1 2 (List.replicate 65536 1)].foldl
            (fun acc p => xorInto acc p.data)
            (List.replicate (maxLenOf [RtpBody.mk 0 0 0 0 2 [1],
              RtpBody.mk 0 1 0 1 2 (List.replicate 65536 1)]) 0) } := by
    unfold AdaptiveFecEncoder.generate_fec_packet
    rw [if_neg (List.cons_ne_nil _ _), if_neg hml]
  have hfindc : List.find? (fun meta => !([RtpBody.mk 0 0 0 0 2 [1]].any
      (fun p => p.sequence_number == meta.sequence_number)))
      ([RtpBody.mk 0 0 0 0 2 [1],
        RtpBody.mk 0 1 0 1 2 (List.replicate 65536 1)].map metaOf) =
      some (metaOf (RtpBody.mk 0 1 0 1 2 (List.replicate 65536 1))) := rfl
  have hguard : ¬ ([RtpBody.mk 0 0 0 0 2 [1]].length ≠
      ([RtpBody.mk 0 0 0 0 2 [1],
        RtpBody.mk 0 1 0 1 2 (List.replicate 65536 1)].map metaOf).length - 1) := by
    rw [List.length_map]
    decide
  have hrecc : AdaptiveFecEncoder.recover_packet
      { timestamp := (([RtpBody.mk 0 0 0 0 2 [1],
            RtpBody.mk 0 1 0 1 2 (List.replicate 65536 1)].getLast?).map
              RtpBody.timestamp).getD 0,
        protected_packets := [RtpBody.mk 0 0 0 0 2 [1],
          RtpBody.mk 0 1 0 1 2 (List.replicate 65536 1)].map metaOf,
        fec_data := [RtpBody.mk 0 0 0 0 2 [1],
          RtpBody.mk 0 1 0 1 2 (List.replicate 65536 1)].foldl
            (fun acc p => xorInto acc p.data)
            (List.replicate (maxLenOf [RtpBody.mk 0 0 0 0 2 [1],
              RtpBody.mk 0 1 0 1 2 (List.replicate 65536 1)]) 0) }
      [RtpBody.mk 0 0 0 0 2 [1]] = some
      { timestamp := (metaOf (RtpBody.mk 0 1 0 1 2 (List.replicate 65536 1))).timestamp,
        sequence_number :=
          (metaOf (RtpBody.mk 0 1 0 1 2 (List.replicate 65536 1))).sequence_number,
        frame_id := (metaOf (RtpBody.mk 0 1 0 1 2 (List.replicate 65536 1))).frame_id,
        fragment_number :=
          (metaOf (RtpBody.mk 0 1 0 1 2 (List.replicate 65536 1))).fragment_number,
        total_fragments :=
          (metaOf (RtpBody.mk 0 1 0 1 2 (List.replicate 65536 1))).total_fragments,
        data := ([RtpBody.mk 0 0 0 0 2 [1]].foldl (fun acc p => xorInto acc p.data)
            ([RtpBody.mk 0 0 0 0 2 [1],
              RtpBody.mk 0 1 0 1 2 (List.replicate 65536 1)].foldl
                (fun acc p => xorInto acc p.data)
                (List.replicate (maxLenOf [RtpBody.mk 0 0 0 0 2 [1],
                  RtpBody.mk 0 1 0 1 2 (List.replicate 65536 1)]) 0))).take
          (metaOf (RtpBody.mk 0 1 0 1 2 (List.replicate 65536 1))).data_length } := by
    unfold AdaptiveFecEncoder.recover_packet
    rw [if_neg hguard, hfindc]
  rw [hgenc, Option.some_bind, hrecc, hmeta, meta_data_length_mk, List.take_zero]
  intro hcontra
  have hfields := Option.some.inj hcontra
  have hdata : ([] : List Nat) = List.replicate 65536 1 :=
    congrArg RtpBody.data hfields
  have hlen := congrArg List.length hdata
  rw [List.length_nil, List.length_replicate] at hlen
  exact absurd hlen (by decide)

/-! ## Packet codec (src/transport/server/src/packet.rs, `PacketSerializer`) -/

/-- `n.to_be_bytes()`: `w` bytes, big-endian, of `n % 256^w`. -/
def beBytes : Nat → Nat → List Nat
  | 0, _ => []
  | w+1, n => beBytes w (n / 256) ++ [n % 256]

/-- The number encoded by a big-endian byte string. -/
def beToNat (bs : List Nat) : Nat := bs.foldl (fun a b => a * 256 + b) 0

/-- Read `w` big-endian bytes off the front of the buffer
(`u64::from_be_bytes` / `u16::from_be_bytes` at the running offset,
followed by the offset advance). -/
def readBE (w : Nat) (buf : List Nat) : Nat × List Nat :=
  (beToNat (buf.take w), buf.drop w)

/-- The 30 metadata bytes serialized per protected packet:
`seq(8) | ts(8) | frame_id(8) | frag(2) | total(2) | len(2)`. -/
def serializeMeta (m : ProtectedPacketMeta) : List Nat :=
  beBytes 8 m.sequence_number ++ beBytes 8 m.timestamp ++
    beBytes 8 m.frame_id ++ beBytes 2 m.fragment_number ++
    beBytes 2 m.total_fragments ++ beBytes 2 m.data_length

/-- `PacketSerializer::serialize`; the one-byte counts are `len as u8`. -/
def PacketSerializer.serialize : Packet → List Nat
  | .rtp b => 0x11 :: (beBytes 8 b.sequence_number ++ beBytes 8 b.timestamp ++
      beBytes 8 b.frame_id ++ beBytes 2 b.total_fragments ++
      beBytes 2 b.fragment_number ++ b.data)
  | .fec b => 0x03 :: (beBytes 8 b.timestamp ++
      [b.protected_packets.length % 256] ++
      (b.protected_packets.map serializeMeta).flatten ++ b.fec_data)
  | .nack b => 0x04 :: ([b.missing_sequences.length % 256] ++
      (b.missing_sequences.map (beBytes 8)).flatten)
  | .ping b => 0x01 :: (beBytes 8 b.timestamp ++ b.data)
  | .pong b => 0x02 :: (beBytes 8 b.timestamp ++ b.data)

/-- The 30-bytes-per-entry metadata parsing loop of the Fec arm. -/
def parseMetas : Nat → List Nat → List ProtectedPacketMeta × List Nat
  | 0, buf => ([], buf)
  | k+1, buf =>
    let r1 := readBE 8 buf
    let r2 := readBE 8 r1.2
    let r3 := readBE 8 r2.2
    let r4 := readBE 2 r3.2
    let r5 := readBE 2 r4.2
    let r6 := readBE 2 r5.2
    let rest := parseMetas k r6.2
    (ProtectedPacketMeta.mk r1.1 r2.1 r3.1 r4.1 r5.1 r6.1 :: rest.1, rest.2)

/-- The 8-bytes-per-sequence parsing loop of the Nack arm. -/
def parseSeqs : Nat → List Nat → List Nat × List Nat
  | 0, buf => ([], buf)
  | k+1, buf =>
    let r := readBE 8 buf
    let rest := parseSeqs k r.2
    (r.1 :: rest.1, rest.2)

/-- `PacketSerializer::deserialize`: dispatch on the one-byte type tag
(`0x01` Ping, `0x02` Pong, `0x03` Fec, `0x04` Nack, `0x11` Rtp), check the
length bound of each arm, then read the big-endian fields in order. -/
def PacketSerializer.deserialize (buffer : List Nat) : Option Packet :=
  match buffer with
  | [] => none
  | tag :: rest =>
    if tag = 0x11 then
      if buffer.length < 29 then none
      else
        let r1 := readBE 8 rest
        let r2 := readBE 8 r1.2
        let r3 := readBE 8 r2.2
        let r4 := readBE 2 r3.2
        let r5 := readBE 2 r4.2
        some (.rtp (RtpBody.mk r2.1 r1.1 r3.1 r5.1 r4.1 r5.2))
    else if tag = 0x03 then
      if buffer.length < 10 then none
      else
        let r1 := readBE 8 rest
        let protected_count := r1.2.headD 0
        if buffer.length < 10 + protected_count * 30 then none
        else
          let ms := parseMetas protected_count r1.2.tail
          some (.fec (FecBody.mk r1.1 ms.1 ms.2))
    else if tag = 0x04 then
      if buffer.length < 2 then none
      else
        let count := rest.headD 0
        if buffer.length < 2 + count * 8 then none
        else
          let ss := parseSeqs count rest.tail
          some (.nack (NackBody.mk ss.1))
    else if tag = 0x01 then
      if buffer.length < 9 then none
      else
        let r1 := readBE 8 rest
        some (.ping (PingBody.mk r1.1 r1.2))
    else if tag = 0x02 then
      if buffer.length < 9 then none
      else
        let r1 := readBE 8 rest
        some (.pong (PongBody.mk r1.1 r1.2))
    else none

/-- Payload bytes fit in a `u8`. -/
def byteOk (l : List Nat) : Prop := ∀ b ∈ l, b < 256

/-- A protected-packet entry's fields fit their Rust integer types. -/
def metaWF (m : ProtectedPacketMeta) : Prop :=
  m.sequence_number < 2^64 ∧ m.timestamp < 2^64 ∧ m.frame_id < 2^64 ∧
  m.fragment_number < 2^16 ∧ m.total_fragments < 2^16 ∧ m.data_length < 2^16

/-- Well-formedness of a packet: every numeric field fits its Rust integer
type (guaranteed by the `u64`/`u16`/`u8` types in the source), a `Nack`
carries at most 255 sequences, an `Fec` at most 255 protected entries. -/
def PacketWF : Packet → Prop
  | .rtp b => b.timestamp < 2^64 ∧ b.sequence_number < 2^64 ∧
      b.frame_id < 2^64 ∧ b.fragment_number < 2^16 ∧
      b.total_fragments < 2^16 ∧ byteOk b.data
  | .fec b => b.timestamp < 2^64 ∧ b.protected_packets.length ≤ 255 ∧
      (∀ m ∈ b.protected_packets, metaWF m) ∧ byteOk b.fec_data
  | .nack b => b.missing_sequences.length ≤ 255 ∧
      ∀ s ∈ b.missing_sequences, s < 2^64
  | .ping b => b.timestamp < 2^64 ∧ byteOk b.data
  | .pong b => b.timestamp < 2^64 ∧ byteOk b.data

/-! ### Codec lemmas -/

lemma len_beBytes (w n : Nat) : (beBytes w n).length = w := by
  induction w generalizing n with
  | zero => rfl
  | succ w ih => simp [beBytes, ih]

lemma beToNat_beBytes (w n : Nat) (h : n < 256 ^ w) :
    beToNat (beBytes w n) = n := by
  induction w generalizing n with
  | zero =>
    have : n = 0 := by simpa using h
    subst this
    rfl
  | succ w ih =>
    have hdiv : n / 256 < 256 ^ w := by
      rw [Nat.div_lt_iff_lt_mul (by norm_num)]
      calc n < 256 ^ (w + 1) := h
        _ = 256 ^ w * 256 := by ring
    unfold beBytes beToNat
    rw [List.foldl_append]
    have hstep : beToNat (beBytes w (n / 256)) = n / 256 := ih _ hdiv
    unfold beToNat at hstep
    rw [hstep]
    simp only [List.foldl_cons, List.foldl_nil]
    omega

lemma readBE_beBytes (w n : Nat) (rest : List Nat) (h : n < 256 ^ w) :
    readBE w (beBytes w n ++ rest) = (n, rest) := by
  unfold readBE
  rw [List.take_left' (len_beBytes w n), List.drop_left' (len_beBytes w n),
    beToNat_beBytes w n h]

lemma pow256_8 : (256:Nat) ^ 8 = 2 ^ 64 := by norm_num

lemma pow256_2 : (256:Nat) ^ 2 = 2 ^ 16 := by norm_num

lemma len_serializeMeta (m : ProtectedPacketMeta) :
    (serializeMeta m).length = 30 := by
  simp [serializeMeta, len_beBytes]

lemma len_metaFlatten (ms : List ProtectedPacketMeta) :
    ((ms.map serializeMeta).flatten).length = 30 * ms.length := by
  induction ms with
  | nil => simp
  | cons m ms ih =>
    simp only [List.map_cons, List.flatten_cons, List.length_append,
      len_serializeMeta, ih, List.length_cons]
    ring

lemma len_seqFlatten (ss : List Nat) :
    ((ss.map (beBytes 8)).flatten).length = 8 * ss.length := by
  induction ss with
  | nil => simp
  | cons s ss ih =>
    simp only [List.map_cons, List.flatten_cons, List.length_append,
      len_beBytes, ih, List.length_cons]
    ring

lemma parseMetas_step (m : ProtectedPacketMeta) (rest : List Nat) (k : Nat)
    (hm : metaWF m) :
    parseMetas (k+1) (serializeMeta m ++ rest) =
      (m :: (parseMetas k rest).1, (parseMetas k rest).2) := by
  obtain ⟨h1, h2, h3, h4, h5, h6⟩ := hm
  conv_lhs => unfold parseMetas
  unfold serializeMeta
  simp only [List.append_assoc]
  rw [readBE_beBytes _ _ _ (by rw [pow256_8]; exact h1)]
  simp only []
  rw [readBE_beBytes _ _ _ (by rw [pow256_8]; exact h2)]
  simp only []
  rw [readBE_beBytes _ _ _ (by rw [pow256_8]; exact h3)]
  simp only []
  rw [readBE_beBytes _ _ _ (by rw [pow256_2]; exact h4)]
  simp only []
  rw [readBE_beBytes _ _ _ (by rw [pow256_2]; exact h5)]
  simp only []
  rw [readBE_beBytes _ _ _ (by rw [pow256_2]; exact h6)]

lemma parseMetas_flatten (ms : List ProtectedPacketMeta) (tailbuf : List Nat)
    (h : ∀ m ∈ ms, metaWF m) :
    parseMetas ms.length ((ms.map serializeMeta).flatten ++ tailbuf) =
      (ms, tailbuf) := by
  induction ms with
  | nil => rfl
  | cons m ms ih =>
    have hm := h m (List.mem_cons_self _ _)
    have hrest : ∀ x ∈ ms, metaWF x := fun x hx => h x (List.mem_cons_of_mem _ hx)
    simp only [List.map_cons, List.flatten_cons, List.length_cons,
      List.append_assoc]
    rw [parseMetas_step m _ ms.length hm, ih hrest]

lemma parseSeqs_step (s : Nat) (rest : List Nat) (k : Nat) (hs : s < 2^64) :
    parseSeqs (k+1) (beBytes 8 s ++ rest) =
      (s :: (parseSeqs k rest).1, (parseSeqs k rest).2) := by
  conv_lhs => unfold parseSeqs
  rw [readBE_beBytes _ _ _ (by rw [pow256_8]; exact hs)]

lemma parseSeqs_flatten (ss : List Nat) (tailbuf : List Nat)
    (h : ∀ s ∈ ss, s < 2^64) :
    parseSeqs ss.length ((ss.map (beBytes 8)).flatten ++ tailbuf) =
      (ss, tailbuf) := by
  induction ss with
  | nil => rfl
  | cons s ss ih =>
    have hs := h s (List.mem_cons_self _ _)
    have hrest : ∀ x ∈ ss, x < 2^64 := fun x hx => h x (List.mem_cons_of_mem _ hx)
    simp only [List.map_cons, List.flatten_cons, List.length_cons,
      List.append_assoc]
    rw [parseSeqs_step s _ ss.length hs, ih hrest]

/-- C2: for every well-formed packet (counts at most 255, fields within
their Rust integer types), `deserialize (serialize p) = some p`. -/
theorem codec_roundtrip (p : Packet) (h : PacketWF p) :
    PacketSerializer.deserialize (PacketSerializer.serialize p) = some p := by
  cases p with
  | rtp b =>
    obtain ⟨h1, h2, h3, h4, h5, -⟩ := h
    unfold PacketSerializer.serialize PacketSerializer.deserialize
    simp only [List.append_assoc]
    rw [if_pos trivial]
    rw [if_neg (by
      simp only [List.length_cons, List.length_append, len_beBytes]
      omega)]
    rw [readBE_beBytes _ _ _ (by rw [pow256_8]; exact h2)]
    simp only []
    rw [readBE_beBytes _ _ _ (by rw [pow256_8]; exact h1)]
    simp only []
    rw [readBE_beBytes _ _ _ (by rw [pow256_8]; exact h3)]
    simp only []
    rw [readBE_beBytes _ _ _ (by rw [pow256_2]; exact h5)]
    simp only []
    rw [readBE_beBytes _ _ _ (by rw [pow256_2]; exact h4)]
  | fec b =>
    obtain ⟨h1, h2, h3, -⟩ := h
    have hcnt : b.protected_packets.length % 256 = b.protected_packets.length :=
      Nat.mod_eq_of_lt (lt_of_le_of_lt h2 (by norm_num))
    unfold PacketSerializer.serialize PacketSerializer.deserialize
    simp only [List.append_assoc, List.singleton_append, List.cons_append]
    rw [if_neg (show ((3:Nat) = 17) → False from by decide),
      if_pos trivial]
    rw [if_neg (by
      simp only [List.length_cons, List.length_append, len_beBytes]
      omega)]
    rw [readBE_beBytes _ _ _ (by rw [pow256_8]; exact h1)]
    rw [hcnt]
    simp only [List.headD_cons, List.tail_cons, List.nil_append]
    rw [if_neg (by
      simp only [List.length_cons, List.length_append, len_beBytes,
        len_metaFlatten]
      omega)]
    rw [parseMetas_flatten b.protected_packets b.fec_data h3]
  | nack b =>
    obtain ⟨h1, h2⟩ := h
    have hcnt : b.missing_sequences.length % 256 = b.missing_sequences.length :=
      Nat.mod_eq_of_lt (lt_of_le_of_lt h1 (by norm_num))
    unfold PacketSerializer.serialize PacketSerializer.deserialize
    simp only [List.append_assoc, List.singleton_append, List.cons_append]
    rw [if_neg (show ((4:Nat) = 17) → False from by decide),
      if_neg (show ((4:Nat) = 3) → False from by decide),
      if_pos trivial]
    rw [if_neg (by
      simp only [List.length_cons, List.length_append, len_seqFlatten]
      omega)]
    simp only [List.headD_cons, List.tail_cons, List.nil_append]
    rw [hcnt]
    rw [if_neg (by
      simp only [List.length_cons, List.length_append, len_seqFlatten]
      omega)]
    have := parseSeqs_flatten b.missing_sequences [] h2
    rw [List.append_nil] at this
    rw [this]
  | ping b =>
    obtain ⟨h1, -⟩ := h
    unfold PacketSerializer.serialize PacketSerializer.deserialize
    simp only [List.append_assoc]
    rw [if_neg (show ((1:Nat) = 17) → False from by decide),
      if_neg (show ((1:Nat) = 3) → False from by decide),
      if_neg (show ((1:Nat) = 4) → False from by decide),
      if_pos trivial]
    rw [if_neg (by
      simp only [List.length_cons, List.length_append, len_beBytes]
      omega)]
    rw [readBE_beBytes _ _ _ (by rw [pow256_8]; exact h1)]
  | pong b =>
    obtain ⟨h1, -⟩ := h
    unfold PacketSerializer.serialize PacketSerializer.deserialize
    simp only [List.append_assoc]
    rw [if_neg (show ((2:Nat) = 17) → False from by decide),
      if_neg (show ((2:Nat) = 3) → False from by decide),
      if_neg (show ((2:Nat) = 4) → False from by decide),
      if_neg (show ((2:Nat) = 1) → False from by decide),
      if_pos trivial]
    rw [if_neg (by
      simp only [List.length_cons, List.length_append, len_beBytes]
      omega)]
    rw [readBE_beBytes _ _ _ (by rw [pow256_8]; exact h1)]

/-- Witness for `codec_roundtrip` on a concrete Fec packet. -/
theorem codec_roundtrip_witness :
    PacketSerializer.deserialize (PacketSerializer.serialize
      (Packet.fec (FecBody.mk 7 [ProtectedPacketMeta.mk 1 2 3 4 5 6] [9, 8]))) =
      some (Packet.fec (FecBody.mk 7 [ProtectedPacketMeta.mk 1 2 3 4 5 6] [9, 8])) :=
  codec_roundtrip
    (Packet.fec (FecBody.mk 7 [ProtectedPacketMeta.mk 1 2 3 4 5 6] [9, 8]))
    (by refine ⟨by norm_num, by norm_num, ?_, ?_⟩
        · intro m hm
          simp only [List.mem_singleton] at hm
          subst hm
          refine ⟨by norm_num, by norm_num, by norm_num, by norm_num,
            by norm_num, by norm_num⟩
        · exact show ∀ x ∈ [(9:Nat), 8], x < 256 from by decide)

/-! ## Frame reassembly (src/transport/server/src/packet.rs, `FrameBuffer`)

`packets` models the `HashMap<u16, RtpBody>` keyed by `fragment_number`:
inserting removes any previous packet with the same fragment number. -/

structure FrameBuffer where
  frame_id : Nat
  expected_fragments : Nat
  packets : List RtpBody
  created_at : Nat
deriving DecidableEq

def FrameBuffer.new (frame_id expected_fragments now : Nat) : FrameBuffer :=
  ⟨frame_id, expected_fragments, [], now⟩

/-- `FrameBuffer::add_packet`; the two error strings of the source are both
collapsed to `none`. -/
def FrameBuffer.add_packet (fb : FrameBuffer) (packet : RtpBody) :
    Option FrameBuffer :=
  if packet.frame_id ≠ fb.frame_id then none
  else if packet.total_fragments ≠ fb.expected_fragments then none
  else
    let kept := fb.packets.filter
      (fun q => q.fragment_number ≠ packet.fragment_number)
    some { fb with packets := packet :: kept }

/-- `FrameBuffer::is_complete`: distinct stored fragment count equals
`expected_fragments`. -/
def FrameBuffer.is_complete (fb : FrameBuffer) : Bool :=
  fb.packets.length == fb.expected_fragments

/-- `FrameBuffer::reconstruct_data`: sort the stored packets by fragment
number ascending and concatenate the payloads. -/
def FrameBuffer.reconstruct_data (fb : FrameBuffer) : Option (List Nat) :=
  if ¬ fb.is_complete then none
  else
    some (((fb.packets.insertionSort
      (fun a b => a.fragment_number ≤ b.fragment_number)).map
        RtpBody.data).flatten)

/-- C10: `add_packet` accepts any packet whose frame id and total match the
buffer, with no check that `fragment_number < total_fragments`; a buffer
expecting 2 fragments that receives fragment numbers 5 and 7 is reported
complete, and `reconstruct_data` returns the concatenation of the two
payloads in ascending fragment-number order — although 5 and 7 are not the
fragment numbers 0..1. -/
theorem framebuffer_accepts_any_fragment_number (fb : FrameBuffer)
    (p : RtpBody) (h1 : p.frame_id = fb.frame_id)
    (h2 : p.total_fragments = fb.expected_fragments) :
    (fb.add_packet p).isSome = true
    ∧ (((FrameBuffer.new 9 2 0).add_packet (RtpBody.mk 0 0 9 5 2 [10, 11])).bind
        (fun b => b.add_packet (RtpBody.mk 0 1 9 7 2 [20]))).map
          FrameBuffer.is_complete = some true
    ∧ (((FrameBuffer.new 9 2 0).add_packet (RtpBody.mk 0 0 9 5 2 [10, 11])).bind
        (fun b => b.add_packet (RtpBody.mk 0 1 9 7 2 [20]))).bind
          FrameBuffer.reconstruct_data = some [10, 11, 20]
    ∧ ¬ ((5:Nat) < 2) ∧ ¬ ((7:Nat) < 2) := by
  refine ⟨?_, by decide, by decide, by decide, by decide⟩
  unfold FrameBuffer.add_packet
  rw [if_neg (by simp [h1]), if_neg (by simp [h2])]
  rfl

/-- Witness for `framebuffer_accepts_any_fragment_number`: a buffer
expecting 1 fragment accepts fragment number 99. -/
theorem framebuffer_accepts_any_fragment_number_witness :
    ((FrameBuffer.new 3 1 0).add_packet (RtpBody.mk 0 0 3 99 1 [1])).isSome = true
    ∧ (((FrameBuffer.new 9 2 0).add_packet (RtpBody.mk 0 0 9 5 2 [10, 11])).bind
        (fun b => b.add_packet (RtpBody.mk 0 1 9 7 2 [20]))).map
          FrameBuffer.is_complete = some true
    ∧ (((FrameBuffer.new 9 2 0).add_packet (RtpBody.mk 0 0 9 5 2 [10, 11])).bind
        (fun b => b.add_packet (RtpBody.mk 0 1 9 7 2 [20]))).bind
          FrameBuffer.reconstruct_data = some [10, 11, 20]
    ∧ ¬ ((5:Nat) < 2) ∧ ¬ ((7:Nat) < 2) :=
  framebuffer_accepts_any_fragment_number (FrameBuffer.new 3 1 0)
    (RtpBody.mk 0 0 3 99 1 [1]) rfl rfl

/-! ### Loss estimator lemmas (C6) -/

/-- The asymmetric EWMA of `update_smoothed_rate` as a function of the
window sizes and the previous smoothed value: skipped on an empty window,
`raw` adopted outright whenever the current smoothed value is 0, fast rise
`0.8·s + 0.2·raw`, slow fall `0.95·s + 0.05·raw`. -/
def smoothedStep (sentLen nackedLen : Nat) (s : ℚ) : ℚ :=
  if sentLen = 0 then s
  else
    let raw : ℚ := (nackedLen : ℚ) / (sentLen : ℚ)
    if s = 0 then raw
    else if raw > s then (8/10) * s + (2/10) * raw
    else (95/100) * s + (5/100) * raw

lemma update_smoothed_sent (x : LossEstimator) :
    x.update_smoothed_rate.sent_packets = x.sent_packets := by
  unfold LossEstimator.update_smoothed_rate
  by_cases h : x.sent_packets = []
  · simp [h]
  · simp only [h, if_false]
    split
    · rfl
    · split <;> rfl

lemma update_smoothed_nacked (x : LossEstimator) :
    x.update_smoothed_rate.nacked_set = x.nacked_set := by
  unfold LossEstimator.update_smoothed_rate
  by_cases h : x.sent_packets = []
  · simp [h]
  · simp only [h, if_false]
    split
    · rfl
    · split <;> rfl

lemma update_smoothed_eq (x : LossEstimator) :
    x.update_smoothed_rate.smoothed_loss_rate =
      smoothedStep x.sent_packets.length x.nacked_set.length
        x.smoothed_loss_rate := by
  unfold LossEstimator.update_smoothed_rate smoothedStep
  by_cases h : x.sent_packets = []
  · simp [h]
  · have hlen : ¬ x.sent_packets.length = 0 := by
      simpa [List.length_eq_zero] using h
    simp only [h, hlen, if_false]
    split
    · rfl
    · split <;> rfl

lemma mem_hashSetInsert (x s : Nat) (l : List Nat) :
    s ∈ hashSetInsert x l ↔ s = x ∨ s ∈ l := by
  unfold hashSetInsert
  by_cases h : x ∈ l
  · simp only [h, if_true]
    constructor
    · intro hs; exact Or.inr hs
    · rintro (rfl | hs)
      · exact h
      · exact hs
  · simp [h, List.mem_cons]

lemma nackFold_mem (window seqs acc : List Nat) (s : Nat) :
    (s ∈ seqs.foldl
        (fun a x => if x ∈ window then hashSetInsert x a else a) acc) ↔
      (s ∈ acc ∨ (s ∈ seqs ∧ s ∈ window)) := by
  induction seqs generalizing acc with
  | nil => simp
  | cons x xs ih =>
    simp only [List.foldl_cons, List.mem_cons]
    by_cases hx : x ∈ window
    · rw [if_pos hx, ih]
      rw [mem_hashSetInsert]
      constructor
      · rintro ((rfl | hs) | ⟨hxs, hw⟩)
        · exact Or.inr ⟨Or.inl rfl, hx⟩
        · exact Or.inl hs
        · exact Or.inr ⟨Or.inr hxs, hw⟩
      · rintro (hs | ⟨(rfl | hxs), hw⟩)
        · exact Or.inl (Or.inr hs)
        · exact Or.inl (Or.inl rfl)
        · exact Or.inr ⟨hxs, hw⟩
    · rw [if_neg hx, ih]
      constructor
      · rintro (hs | ⟨hxs, hw⟩)
        · exact Or.inl hs
        · exact Or.inr ⟨Or.inr hxs, hw⟩
      · rintro (hs | ⟨(rfl | hxs), hw⟩)
        · exact Or.inl hs
        · exact absurd hw hx
        · exact Or.inr ⟨hxs, hw⟩

lemma update_smoothed_rate_nonneg (x : LossEstimator)
    (h : 0 ≤ x.smoothed_loss_rate) :
    0 ≤ x.update_smoothed_rate.smoothed_loss_rate := by
  rw [update_smoothed_eq]
  unfold smoothedStep
  by_cases h1 : x.sent_packets.length = 0
  · simpa [h1] using h
  · have hraw : (0:ℚ) ≤ (x.nacked_set.length : ℚ) / (x.sent_packets.length : ℚ) := by
      positivity
    simp only [h1, if_false]
    by_cases h2 : x.smoothed_loss_rate = 0
    · simpa [h2] using hraw
    · simp only [h2, if_false]
      split <;> nlinarith

/-- The estimator's smoothed loss rate stays nonnegative across both update
operations (used when instantiating the pacer's budget bound). -/
lemma smoothed_loss_rate_nonneg (le : LossEstimator) (now seq : Nat)
    (seqs : List Nat) (h : 0 ≤ le.smoothed_loss_rate) :
    0 ≤ (le.record_packet_sent now seq).smoothed_loss_rate ∧
    0 ≤ (le.record_nack_received now seqs).smoothed_loss_rate := by
  constructor
  · exact update_smoothed_rate_nonneg _ h
  · exact update_smoothed_rate_nonneg _ h

/-- C6 (amended): `record_packet_sent` prunes entries older than 2 s from
the sent window before updating, records the new entry, and drops from the
nacked set exactly the sequence numbers of the pruned sent records, while
`record_nack_received` performs *no* pruning (the sent list is unchanged)
and only marks NACKed sequences already in the sent window; on both paths
the smoothed rate is updated by `smoothedStep`: unchanged on an empty
window, set to `raw` outright whenever the current smoothed value is 0
(not only on the first sample), `0.8·s + 0.2·raw` when `raw > s`, else
`0.95·s + 0.05·raw`. -/
theorem loss_estimator_update_characterization (le : LossEstimator)
    (now seq : Nat) (seqs : List Nat) :
    (le.record_nack_received now seqs).sent_packets = le.sent_packets
    ∧ (∀ e ∈ (le.record_packet_sent now seq).sent_packets, now ≤ e.2 + 2000)
    ∧ (seq, now) ∈ (le.record_packet_sent now seq).sent_packets
    ∧ (∀ s, s ∈ (le.record_packet_sent now seq).nacked_set ↔
        s ∈ le.nacked_set ∧
        ¬ s ∈ (le.sent_packets.filter
          (fun p => p.2 < now - 2000)).map Prod.fst)
    ∧ (∀ s, s ∈ (le.record_nack_received now seqs).nacked_set ↔
        s ∈ le.nacked_set ∨ (s ∈ seqs ∧ s ∈ le.sent_packets.map Prod.fst))
    ∧ (le.record_packet_sent now seq).smoothed_loss_rate =
        smoothedStep (le.record_packet_sent now seq).sent_packets.length
          (le.record_packet_sent now seq).nacked_set.length
          le.smoothed_loss_rate
    ∧ (le.record_nack_received now seqs).smoothed_loss_rate =
        smoothedStep le.sent_packets.length
          (le.record_nack_received now seqs).nacked_set.length
          le.smoothed_loss_rate := by
  refine ⟨?_, ?_, ?_, ?_, ?_, ?_, ?_⟩
  · unfold LossEstimator.record_nack_received
    rw [update_smoothed_sent]
  · intro e he
    unfold LossEstimator.record_packet_sent at he
    rw [update_smoothed_sent] at he
    unfold LossEstimator.prune at he
    have hp := List.of_mem_filter he
    simp only [decide_eq_true_eq, Nat.not_lt] at hp
    omega
  · unfold LossEstimator.record_packet_sent
    rw [update_smoothed_sent]
    unfold LossEstimator.prune
    simp only [List.mem_filter]
    refine ⟨List.mem_append.mpr (Or.inr (List.mem_singleton.mpr rfl)), ?_⟩
    simp only [decide_eq_true_eq, Nat.not_lt]
    omega
  · intro s
    unfold LossEstimator.record_packet_sent
    rw [update_smoothed_nacked]
    unfold LossEstimator.prune
    have hsing : ((le.sent_packets ++ [(seq, now)]).filter
        (fun p => decide (p.2 < now - 2000))) =
        le.sent_packets.filter (fun p => decide (p.2 < now - 2000)) := by
      rw [List.filter_append]
      have hone : ([(seq, now)].filter
          (fun p : Nat × Nat => decide (p.2 < now - 2000))) = [] := by
        simp only [List.filter_cons, List.filter_nil]
        rw [if_neg (by simp only [decide_eq_true_eq]; omega)]
      rw [hone, List.append_nil]
    simp only [List.mem_filter, decide_eq_true_eq, hsing]
  · intro s
    unfold LossEstimator.record_nack_received
    rw [update_smoothed_nacked]
    simp only []
    rw [nackFold_mem]
  · unfold LossEstimator.record_packet_sent
    rw [update_smoothed_eq, update_smoothed_sent, update_smoothed_nacked]
    rfl
  · unfold LossEstimator.record_nack_received
    rw [update_smoothed_eq, update_smoothed_nacked]

/-- C6 counterexample to the claim as stated: after one packet sent at
t = 0, a NACK received at t = 5000 leaves the 5-second-old entry in the
sent list (no pruning happens in `record_nack_received`) and sets the
smoothed rate to `raw = 1` outright (the `smoothed == 0.0` branch),
whereas the claim prescribes dropping the stale entry and, failing that,
`0.8·0 + 0.2·1 = 0.2`. -/
theorem loss_estimator_cex :
    ((LossEstimator.new.record_packet_sent 0 7).record_nack_received
        5000 [7]).sent_packets = [(7, 0)]
    ∧ ((LossEstimator.new.record_packet_sent 0 7).record_nack_received
        5000 [7]).smoothed_loss_rate = 1
    ∧ 2000 < 5000 - 0
    ∧ (8/10 : ℚ) * 0 + (2/10) * 1 ≠ 1 := by
  have h1 : LossEstimator.record_packet_sent 0 7 LossEstimator.new =
      LossEstimator.mk [(7, 0)] [] 0 := by
    unfold LossEstimator.new LossEstimator.record_packet_sent
      LossEstimator.prune LossEstimator.update_smoothed_rate
    norm_num
  have h2 : LossEstimator.record_nack_received 5000 [7]
      (LossEstimator.mk [(7, 0)] [] 0) = LossEstimator.mk [(7, 0)] [7] 1 := by
    unfold LossEstimator.record_nack_received LossEstimator.update_smoothed_rate
      hashSetInsert
    norm_num
  rw [h1, h2]
  refine ⟨rfl, rfl, by norm_num, by norm_num⟩

/-! ## NACK controller (src/transport/server/src/nack/nack_controller.rs) -/

structure PendingNack where
  missing_sequences : List Nat
  sent_at : Nat
  created_at : Nat
  retransmissions : Nat
deriving DecidableEq

/-- `NackController::get_delay` in milliseconds (`srtt` is the `f64`
smoothed RTT, modelled as a rational). -/
def NackController.get_delay (srtt : ℚ) (rto : Nat) (retransmissions : Nat) :
    Nat :=
  if retransmissions = 0 then (if srtt > 150 then 60 else 20) else rto

/-- MAX_RETRANSMISSIONS. -/
def MAX_RETRANSMISSIONS : Nat := 5

/-- The treatment of one pending NACK inside the `retain_mut` of
`NackController::check_pending_nacks`: prune sequences present in the
receive cache (`received` is its key set), drop when empty or exhausted,
send when the delay has elapsed.  Returns the retained entry (`none` =
removed) and whether the NACK datagram was sent this tick. -/
def NackController.stepNack (now : Nat) (received : List Nat) (srtt : ℚ)
    (rto : Nat) (nack : PendingNack) : Option PendingNack × Bool :=
  let pruned := nack.missing_sequences.filter (fun s => ¬ s ∈ received)
  if pruned = [] then (none, false)
  else if MAX_RETRANSMISSIONS ≤ nack.retransmissions then (none, false)
  else if nack.sent_at + NackController.get_delay srtt rto nack.retransmissions
      ≤ now then
    (some { missing_sequences := pruned, sent_at := now,
            created_at := nack.created_at,
            retransmissions := nack.retransmissions + 1 }, true)
  else (some { nack with missing_sequences := pruned }, false)

/-- `NackController::check_pending_nacks` over the pending list: the
retained entries and the number of NACK datagrams sent this tick. -/
def NackController.check_pending_nacks (now : Nat) (received : List Nat)
    (srtt : ℚ) (rto : Nat) : List PendingNack → List PendingNack × Nat
  | [] => ([], 0)
  | nk :: rest =>
    let r := NackController.stepNack now received srtt rto nk
    let rs := NackController.check_pending_nacks now received srtt rto rest
    match r.1 with
    | none => (rs.1, (if r.2 then 1 else 0) + rs.2)
    | some nk' => (nk' :: rs.1, (if r.2 then 1 else 0) + rs.2)

/-- One pending NACK followed through a sequence of retransmit ticks, each
tick being `(now, receive-cache keys, srtt, rto)`: the surviving entry and
the total number of datagram sends across the ticks. -/
def runNackTicks : List (Nat × List Nat × ℚ × Nat) → PendingNack →
    Option PendingNack × Nat
  | [], nk => (some nk, 0)
  | t :: ts, nk =>
    match NackController.stepNack t.1 t.2.1 t.2.2.1 t.2.2.2 nk with
    | (none, b) => (none, if b then 1 else 0)
    | (some nk', b) =>
      let r := runNackTicks ts nk'
      (r.1, (if b then 1 else 0) + r.2)

lemma stepNack_retx (now : Nat) (received : List Nat) (srtt : ℚ) (rto : Nat)
    (nk : PendingNack) :
    ((NackController.stepNack now received srtt rto nk).1 = none ↔
      (nk.missing_sequences.filter (fun s => ¬ s ∈ received) = [] ∨
        MAX_RETRANSMISSIONS ≤ nk.retransmissions))
    ∧ ((NackController.stepNack now received srtt rto nk).1 = none →
        (NackController.stepNack now received srtt rto nk).2 = false)
    ∧ ((NackController.stepNack now received srtt rto nk).2 = true ↔
      (nk.missing_sequences.filter (fun s => ¬ s ∈ received) ≠ [] ∧
        nk.retransmissions < MAX_RETRANSMISSIONS ∧
        nk.sent_at + NackController.get_delay srtt rto nk.retransmissions ≤ now))
    ∧ ((NackController.stepNack now received srtt rto nk).2 = true →
      ((NackController.stepNack now received srtt rto nk).1.map
        PendingNack.retransmissions) = some (nk.retransmissions + 1)) := by
  unfold NackController.stepNack
  by_cases h1 : nk.missing_sequences.filter (fun s => ¬ s ∈ received) = []
  · rw [if_pos h1]
    have h1' : ∀ a ∈ nk.missing_sequences, a ∈ received := by
      simpa using h1
    simp only [MAX_RETRANSMISSIONS]
    simp [h1']
    refine ⟨Or.inl h1', ?_⟩
    intro x hx hnx
    exact absurd (h1' x hx) hnx
  · rw [if_neg h1]
    have h1' : ¬ ∀ a ∈ nk.missing_sequences, a ∈ received := by
      simpa using h1
    by_cases h2 : MAX_RETRANSMISSIONS ≤ nk.retransmissions
    · rw [if_pos h2]
      simp only [MAX_RETRANSMISSIONS] at h2 ⊢
      simp [h1', h2]
    · rw [if_neg h2]
      by_cases h3 : nk.sent_at +
          NackController.get_delay srtt rto nk.retransmissions ≤ now
      · rw [if_pos h3]
        simp only [MAX_RETRANSMISSIONS] at h2 ⊢
        simp [h1', h2, h3]
        omega
      · rw [if_neg h3]
        simp only [MAX_RETRANSMISSIONS] at h2 ⊢
        simp [h1', h2, h3]

lemma runNackTicks_le (ticks : List (Nat × List Nat × ℚ × Nat))
    (nk : PendingNack) :
    (runNackTicks ticks nk).2 ≤ MAX_RETRANSMISSIONS - nk.retransmissions := by
  induction ticks generalizing nk with
  | nil => simp [runNackTicks]
  | cons t ts ih =>
    unfold runNackTicks NackController.stepNack
    by_cases h1 : nk.missing_sequences.filter (fun s => ¬ s ∈ t.2.1) = []
    · rw [if_pos h1]
      simp
    · rw [if_neg h1]
      by_cases h2 : MAX_RETRANSMISSIONS ≤ nk.retransmissions
      · rw [if_pos h2]
        simp
      · rw [if_neg h2]
        by_cases h3 : nk.sent_at +
            NackController.get_delay t.2.2.1 t.2.2.2 nk.retransmissions ≤ t.1
        · rw [if_pos h3]
          have hstep := ih (PendingNack.mk
            (nk.missing_sequences.filter (fun s => ¬ s ∈ t.2.1))
            t.1 nk.created_at (nk.retransmissions + 1))
          simp only [MAX_RETRANSMISSIONS] at h2 hstep ⊢
          split
          · omega
          · omega
        · rw [if_neg h3]
          have hstep := ih { nk with missing_sequences :=
            nk.missing_sequences.filter (fun s => ¬ s ∈ t.2.1) }
          simp only [MAX_RETRANSMISSIONS] at h2 hstep ⊢
          simp at hstep ⊢
          omega

/-- C7: on a retransmit tick a pending NACK is removed without sending
exactly when its pruned missing-sequence list is empty or its counter has
reached MAX_RETRANSMISSIONS = 5; while pending, the datagram is sent
exactly when `sent_at + get_delay(srtt, rto, retx) ≤ now`, incrementing the
counter; and across any sequence of ticks the total number of sends is at
most `5 - retransmissions` (so at most 5 for a fresh pending NACK). -/
theorem nack_retransmit_behavior (now : Nat) (received : List Nat)
    (srtt : ℚ) (rto : Nat) (nk : PendingNack)
    (ticks : List (Nat × List Nat × ℚ × Nat)) :
    ((NackController.stepNack now received srtt rto nk).1 = none ↔
      (nk.missing_sequences.filter (fun s => ¬ s ∈ received) = [] ∨
        MAX_RETRANSMISSIONS ≤ nk.retransmissions))
    ∧ ((NackController.stepNack now received srtt rto nk).1 = none →
        (NackController.stepNack now received srtt rto nk).2 = false)
    ∧ ((NackController.stepNack now received srtt rto nk).2 = true ↔
      (nk.missing_sequences.filter (fun s => ¬ s ∈ received) ≠ [] ∧
        nk.retransmissions < MAX_RETRANSMISSIONS ∧
        nk.sent_at + NackController.get_delay srtt rto nk.retransmissions ≤ now))
    ∧ ((NackController.stepNack now received srtt rto nk).2 = true →
      ((NackController.stepNack now received srtt rto nk).1.map
        PendingNack.retransmissions) = some (nk.retransmissions + 1))
    ∧ (runNackTicks ticks nk).2 ≤ MAX_RETRANSMISSIONS - nk.retransmissions := by
  obtain ⟨a, b, c, d⟩ := stepNack_retx now received srtt rto nk
  exact ⟨a, b, c, d, runNackTicks_le ticks nk⟩

/-- Witness for `nack_retransmit_behavior` at a fresh pending NACK and one
tick whose delay has elapsed. -/
theorem nack_retransmit_behavior_witness :
    ((NackController.stepNack 100 [] 0 40 (PendingNack.mk [1] 0 0 0)).1 = none ↔
      ((PendingNack.mk [1] 0 0 0).missing_sequences.filter
          (fun s => ¬ s ∈ ([] : List Nat)) = [] ∨
        MAX_RETRANSMISSIONS ≤ (PendingNack.mk [1] 0 0 0).retransmissions))
    ∧ ((NackController.stepNack 100 [] 0 40 (PendingNack.mk [1] 0 0 0)).1 = none →
        (NackController.stepNack 100 [] 0 40 (PendingNack.mk [1] 0 0 0)).2 = false)
    ∧ ((NackController.stepNack 100 [] 0 40 (PendingNack.mk [1] 0 0 0)).2 = true ↔
      ((PendingNack.mk [1] 0 0 0).missing_sequences.filter
          (fun s => ¬ s ∈ ([] : List Nat)) ≠ [] ∧
        (PendingNack.mk [1] 0 0 0).retransmissions < MAX_RETRANSMISSIONS ∧
        (PendingNack.mk [1] 0 0 0).sent_at +
          NackController.get_delay 0 40 (PendingNack.mk [1] 0 0 0).retransmissions
            ≤ 100))
    ∧ ((NackController.stepNack 100 [] 0 40 (PendingNack.mk [1] 0 0 0)).2 = true →
      ((NackController.stepNack 100 [] 0 40 (PendingNack.mk [1] 0 0 0)).1.map
        PendingNack.retransmissions) =
          some ((PendingNack.mk [1] 0 0 0).retransmissions + 1))
    ∧ (runNackTicks [(100, [], 0, 40)] (PendingNack.mk [1] 0 0 0)).2 ≤
        MAX_RETRANSMISSIONS - (PendingNack.mk [1] 0 0 0).retransmissions :=
  nack_retransmit_behavior 100 [] 0 40 (PendingNack.mk [1] 0 0 0)
    [(100, [], 0, 40)]

/-! ## Connection runner inbound arms (src/transport/server/src/lib.rs)

Only the state that the inbound `Rtp`/`Fec` arms and the janitor touch is
modelled (`streams`, `received_rackets`, `nacks`, `in_seq`); the
completed-frame message send goes to an mpsc channel and alters none of
these fields. -/

def MAX_FRAMES : Nat := 16384

def MAX_PACKETS : Nat := 262144

structure RunnerState where
  streams : List (Nat × FrameBuffer)
  received_rackets : List (Nat × RtpBody)
  nacks : List PendingNack
  in_seq : Nat

/-- `HashMap::get` on the association-list model. -/
def mapLookup (k : Nat) (m : List (Nat × FrameBuffer)) : Option FrameBuffer :=
  (m.find? (fun e => e.1 == k)).map (·.2)

/-- `HashMap::insert` on the `streams` map. -/
def streamsInsert (k : Nat) (v : FrameBuffer) (m : List (Nat × FrameBuffer)) :
    List (Nat × FrameBuffer) :=
  (k, v) :: m.filter (fun e => e.1 ≠ k)

/-- `HashMap::insert` on the receive cache. -/
def cacheInsert (k : Nat) (v : RtpBody) (c : List (Nat × RtpBody)) :
    List (Nat × RtpBody) :=
  (k, v) :: c.filter (fun e => e.1 ≠ k)

/-- `NackController::on_rtp_received`: remove the sequence from every
pending NACK, dropping entries whose list empties. -/
def NackController.on_rtp_received (pending : List PendingNack)
    (sequence_number : Nat) : List PendingNack :=
  (pending.map (fun nk =>
    PendingNack.mk (nk.missing_sequences.filter (fun s => s ≠ sequence_number))
      nk.sent_at nk.created_at nk.retransmissions)).filter
    (fun nk => nk.missing_sequences ≠ [])

/-- `NackController::on_gap_detected`: gaps wider than
MAX_SEQUENCE_GAP = 100 are dropped; otherwise the sequences of
`[start, endSeq)` missing from the receive cache become a fresh
PendingNack stamped with `now`. -/
def NackController.on_gap_detected (pending : List PendingNack)
    (received : List (Nat × RtpBody)) (now start endSeq : Nat) :
    List PendingNack :=
  if 100 < endSeq - start then pending
  else
    let missing := (List.range' start (endSeq - start)).filter
      (fun seq => ¬ received.any (fun e => e.1 == seq))
    if missing = [] then pending
    else pending ++ [PendingNack.mk missing now now 0]

/-- The `Packet::Rtp` arm of `ConnectionRunner::handle_packet`: capacity
guards, `entry().or_insert_with` (which leaves a fresh empty buffer in
`streams` even when `add_packet` then fails), NACK pruning, receive-cache
insert, gap detection and `in_seq` advance (u64 wrapping). -/
def rtpStep (now : Nat) (st : RunnerState) (body : RtpBody) : RunnerState :=
  if MAX_FRAMES ≤ st.streams.length ∧ mapLookup body.frame_id st.streams = none
  then st
  else if MAX_PACKETS ≤ st.received_rackets.length then st
  else
    let frame := (mapLookup body.frame_id st.streams).getD
      (FrameBuffer.new body.frame_id body.total_fragments now)
    match frame.add_packet body with
    | none => { st with streams := streamsInsert body.frame_id frame st.streams }
    | some frame' =>
      let st1 : RunnerState :=
        { streams := streamsInsert body.frame_id frame' st.streams,
          received_rackets :=
            cacheInsert body.sequence_number body st.received_rackets,
          nacks := NackController.on_rtp_received st.nacks body.sequence_number,
          in_seq := st.in_seq }
      if st.in_seq < body.sequence_number then
        { st1 with
          nacks := NackController.on_gap_detected st1.nacks
            st1.received_rackets now st.in_seq body.sequence_number,
          in_seq := (body.sequence_number + 1) % 2^64 }
      else if body.sequence_number = st.in_seq then
        { st1 with in_seq := (st.in_seq + 1) % 2^64 }
      else st1

/-- The `Packet::Fec` arm of `ConnectionRunner::handle_packet`: materialize
the cached packets protected by the FEC, attempt recovery, and on success
insert the recovered packet into its frame buffer and the receive cache.
NOTE: unlike the Rtp arm this arm checks neither MAX_FRAMES nor
MAX_PACKETS. -/
def fecStep (now : Nat) (st : RunnerState) (body : FecBody) : RunnerState :=
  match AdaptiveFecEncoder.recover_packet body
      ((st.received_rackets.filter (fun e =>
        (body.protected_packets.map (fun m => m.sequence_number)).contains
          e.1)).map (·.2)) with
  | none => st
  | some p =>
    let frame := (mapLookup p.frame_id st.streams).getD
      (FrameBuffer.new p.frame_id p.total_fragments now)
    match frame.add_packet p with
    | none => { st with streams := streamsInsert p.frame_id frame st.streams }
    | some frame' =>
      { streams := streamsInsert p.frame_id frame' st.streams,
        received_rackets := cacheInsert p.sequence_number p st.received_rackets,
        nacks := NackController.on_rtp_received st.nacks p.sequence_number,
        in_seq := st.in_seq }

/-- The janitor arm (`cleanup_interval` tick): age out entries older than
5 s. -/
def janitorStep (now : Nat) (st : RunnerState) : RunnerState :=
  { streams := st.streams.filter (fun e => now - e.2.created_at < 5000),
    received_rackets :=
      st.received_rackets.filter (fun e => now - e.2.timestamp < 5000),
    nacks := st.nacks.filter (fun nk => now - nk.created_at < 5000),
    in_seq := st.in_seq }

lemma cacheInsert_length_le (k : Nat) (v : RtpBody)
    (c : List (Nat × RtpBody)) :
    (cacheInsert k v c).length ≤ c.length + 1 := by
  unfold cacheInsert
  simp only [List.length_cons]
  have := List.length_filter_le (fun e => decide (e.1 ≠ k)) c
  omega

/-- C5 (amended): the inbound-Rtp arm and the janitor preserve the
receive-cache bound MAX_PACKETS = 262144 — the Rtp arm refuses new entries
when the cache is full — but the Fec-recovery arm performs no capacity
check: it can grow the cache by one beyond any current size, in particular
past MAX_PACKETS (see `receive_cache_bound_cex`). -/
theorem receive_cache_bound (now : Nat) (st : RunnerState) (body : RtpBody)
    (fec : FecBody) (h : st.received_rackets.length ≤ MAX_PACKETS) :
    (rtpStep now st body).received_rackets.length ≤ MAX_PACKETS
    ∧ (janitorStep now st).received_rackets.length ≤ MAX_PACKETS
    ∧ (fecStep now st fec).received_rackets.length ≤
        st.received_rackets.length + 1 := by
  refine ⟨?_, ?_, ?_⟩
  · unfold rtpStep
    by_cases h1 : MAX_FRAMES ≤ st.streams.length ∧
        mapLookup body.frame_id st.streams = none
    · rw [if_pos h1]
      exact h
    · rw [if_neg h1]
      by_cases h2 : MAX_PACKETS ≤ st.received_rackets.length
      · rw [if_pos h2]
        exact h
      · rw [if_neg h2]
        have hins := cacheInsert_length_le body.sequence_number body
          st.received_rackets
        simp only [MAX_PACKETS] at h2 ⊢
        split
        · simp only []
          omega
        · split
          · simp only []
            omega
          · split
            · simp only []
              omega
            · simp only []
              omega
  · unfold janitorStep
    have := List.length_filter_le
      (fun e : Nat × RtpBody => decide (now - e.2.timestamp < 5000))
      st.received_rackets
    simp only [MAX_PACKETS] at h ⊢
    omega
  · unfold fecStep
    split
    · omega
    · rename_i p hrec
      simp only []
      split
      · simp only []
        omega
      · rename_i frame' hadd
        simp only []
        have hins := cacheInsert_length_le p.sequence_number p
          st.received_rackets
        omega

/-- Witness state for `receive_cache_bound`: the empty runner state. -/
theorem receive_cache_bound_witness :
    (RunnerState.mk [] [] [] 0).received_rackets.length ≤ MAX_PACKETS
    ∧ ((rtpStep 3 (RunnerState.mk [] [] [] 0)
          (RtpBody.mk 0 0 0 0 1 [1])).received_rackets.length ≤ MAX_PACKETS
      ∧ (janitorStep 3 (RunnerState.mk [] [] [] 0)).received_rackets.length ≤
          MAX_PACKETS
      ∧ (fecStep 3 (RunnerState.mk [] [] [] 0)
            (FecBody.mk 0 [] [])).received_rackets.length ≤
          (RunnerState.mk [] [] [] 0).received_rackets.length + 1) :=
  ⟨by decide, receive_cache_bound 3 (RunnerState.mk [] [] [] 0)
    (RtpBody.mk 0 0 0 0 1 [1]) (FecBody.mk 0 [] []) (by decide)⟩

/-- The receive cache of the C5 counterexample: exactly MAX_PACKETS
entries, sequence numbers 0..262143. -/
def overflowCache : List (Nat × RtpBody) :=
  (List.range 262144).map (fun i => (i, RtpBody.mk 0 i 0 0 2 [1]))

/-- A FEC body protecting the cached sequence 0 and the never-received
sequence 500000. -/
def overflowFec : FecBody :=
  FecBody.mk 0 [ProtectedPacketMeta.mk 0 0 0 0 2 1,
    ProtectedPacketMeta.mk 500000 0 77 0 2 1] [5]

lemma runnerState_received (a : List (Nat × FrameBuffer))
    (b : List (Nat × RtpBody)) (c : List PendingNack) (d : Nat) :
    (RunnerState.mk a b c d).received_rackets = b := rfl

lemma fecStep_recover_cache (now : Nat) (st : RunnerState) (body : FecBody)
    (p : RtpBody) (frame' : FrameBuffer)
    (hrec : AdaptiveFecEncoder.recover_packet body
      ((st.received_rackets.filter (fun e =>
        (body.protected_packets.map (fun m => m.sequence_number)).contains
          e.1)).map (·.2)) = some p)
    (hadd : ((mapLookup p.frame_id st.streams).getD
        (FrameBuffer.new p.frame_id p.total_fragments now)).add_packet p
      = some frame') :
    (fecStep now st body).received_rackets =
      cacheInsert p.sequence_number p st.received_rackets := by
  unfold fecStep
  rw [hrec]
  simp only []
  rw [hadd]

/-- C5 counterexample: with the receive cache already holding exactly
MAX_PACKETS entries, the Fec arm of `handle_packet` still inserts a
successfully recovered packet, growing the cache to MAX_PACKETS + 1 —
the claimed "refusing new entries when full" does not hold for the
Fec-recovery path. -/
theorem receive_cache_bound_cex :
    (RunnerState.mk [] overflowCache [] 0).received_rackets.length =
      MAX_PACKETS
    ∧ (fecStep 0 (RunnerState.mk [] overflowCache [] 0)
        overflowFec).received_rackets.length = MAX_PACKETS + 1 := by
  have hlen : overflowCache.length = 262144 := by
    unfold overflowCache
    rw [List.length_map, List.length_range]
  have hrecov : AdaptiveFecEncoder.recover_packet overflowFec
      [RtpBody.mk 0 0 0 0 2 [1]] = some (RtpBody.mk 0 500000 77 0 2 [4]) := by
    decide
  have htail : ((List.range' 1 262143).map
      (fun i => (i, RtpBody.mk 0 i 0 0 2 [1]))).filter
      (fun e => ([0, 500000] : List Nat).contains e.1) = [] := by
    apply List.filter_eq_nil_iff.mpr
    intro a ha
    rcases List.mem_map.mp ha with ⟨i, hi, rfl⟩
    have hm := List.mem_range'_1.mp hi
    have e0 : (i == 0) = false := by simp; omega
    have e5 : (i == 500000) = false := by simp; omega
    show ¬ (([0, 500000] : List Nat).contains i = true)
    simp only [List.contains, List.elem_cons, List.elem_nil, e0, e5]
    exact Bool.false_ne_true
  have hfil : overflowCache.filter
      (fun e => ([0, 500000] : List Nat).contains e.1) =
      [((0 : Nat), RtpBody.mk 0 0 0 0 2 [1])] := by
    unfold overflowCache
    rw [List.range_eq_range', show (262144 : Nat) = 262143 + 1 from rfl,
      List.range'_succ, Nat.zero_add, List.map_cons, List.filter_cons]
    rw [if_pos (show (([0, 500000] : List Nat).contains
      ((0 : Nat), RtpBody.mk 0 0 0 0 2 [1]).1) = true from rfl)]
    rw [htail]
  have hrec2 : AdaptiveFecEncoder.recover_packet overflowFec
      (((RunnerState.mk [] overflowCache [] 0).received_rackets.filter
        (fun e => (overflowFec.protected_packets.map
          (fun m => m.sequence_number)).contains e.1)).map (·.2)) =
      some (RtpBody.mk 0 500000 77 0 2 [4]) := by
    have hfun : (fun e : Nat × RtpBody =>
        (overflowFec.protected_packets.map
          (fun m => m.sequence_number)).contains e.1) =
        (fun e : Nat × RtpBody =>
          ([0, 500000] : List Nat).contains e.1) := rfl
    rw [runnerState_received, hfun, hfil]
    exact hrecov
  have hadd2 : ((mapLookup (RtpBody.mk 0 500000 77 0 2 [4]).frame_id
      (RunnerState.mk [] overflowCache [] 0).streams).getD
      (FrameBuffer.new (RtpBody.mk 0 500000 77 0 2 [4]).frame_id
        (RtpBody.mk 0 500000 77 0 2 [4]).total_fragments 0)).add_packet
      (RtpBody.mk 0 500000 77 0 2 [4]) =
      some (FrameBuffer.mk 77 2 [RtpBody.mk 0 500000 77 0 2 [4]] 0) := by
    decide
  have hcache := fecStep_recover_cache 0
    (RunnerState.mk [] overflowCache [] 0) overflowFec
    (RtpBody.mk 0 500000 77 0 2 [4])
    (FrameBuffer.mk 77 2 [RtpBody.mk 0 500000 77 0 2 [4]] 0) hrec2 hadd2
  have hkeep : overflowCache.filter
      (fun e => e.1 ≠ (RtpBody.mk 0 500000 77 0 2 [4]).sequence_number) =
      overflowCache := by
    apply List.filter_eq_self.mpr
    intro a ha
    unfold overflowCache at ha
    rcases List.mem_map.mp ha with ⟨i, hi, rfl⟩
    have hir := List.mem_range.mp hi
    simp only [decide_eq_true_eq]
    show i ≠ 500000
    omega
  refine ⟨?_, ?_⟩
  · rw [runnerState_received, hlen]
    rfl
  · rw [hcache]
    rw [runnerState_received]
    unfold cacheInsert
    rw [hkeep, List.length_cons, hlen]
    rfl

/-! ## Fragmentation (`ConnectionRunner::fragment_and_send_data`,
src/transport/server/src/lib.rs) and frame reassembly

`fragment_and_send_data` walks the message in chunks of
MAX_FRAGMENT_SIZE = 1000 bytes (`split_to(min(1000, len))` is
`take 1000` / `drop 1000`, since both clamp at the length); the u64
`out_seq` and the u16 `fragment_number` are modelled with their values
kept reduced and the wrapping increments written `% 2^64` / `% 65536`;
`total_fragments = data.len().div_ceil(1000) as u16` is
`divCeil data.length 1000 % 65536`.  Only the produced Rtp bodies are
modelled; the pacer/FEC/send-cache side effects touch none of them. -/

/-- Rust `usize::div_ceil` (for a divisor > 0). -/
def divCeil (a b : Nat) : Nat := (a + b - 1) / b

/-- The `while !data.is_empty()` loop of `fragment_and_send_data`. -/
def fragmentLoop (timestamp frame_id total_fragments : Nat) :
    List Nat → Nat → Nat → List RtpBody
  | [], _, _ => []
  | d :: rest, out_seq, fragment_number =>
    RtpBody.mk timestamp (out_seq % 2^64) frame_id (fragment_number % 65536)
      total_fragments ((d :: rest).take 1000) ::
    fragmentLoop timestamp frame_id total_fragments
      ((d :: rest).drop 1000) ((out_seq + 1) % 2^64)
      ((fragment_number + 1) % 65536)
termination_by data _ _ => data.length
decreasing_by
  simp only [List.length_drop, List.length_cons]
  omega

/-- `ConnectionRunner::fragment_and_send_data`, restricted to the Rtp
bodies it builds. -/
def fragment_and_send_data (timestamp frame_id out_seq : Nat)
    (data : List Nat) : List RtpBody :=
  fragmentLoop timestamp frame_id (divCeil data.length 1000 % 65536)
    data out_seq 0

lemma fragmentLoop_nil (ts fid tot oseq fnum : Nat) :
    fragmentLoop ts fid tot [] oseq fnum = [] := by
  unfold fragmentLoop
  rfl

lemma fragmentLoop_cons (ts fid tot d : Nat) (rest : List Nat)
    (oseq fnum : Nat) :
    fragmentLoop ts fid tot (d :: rest) oseq fnum =
      RtpBody.mk ts (oseq % 2^64) fid (fnum % 65536) tot
        ((d :: rest).take 1000) ::
      fragmentLoop ts fid tot ((d :: rest).drop 1000) ((oseq + 1) % 2^64)
        ((fnum + 1) % 65536) := by
  conv_lhs => unfold fragmentLoop

lemma fragmentLoop_eq (ts fid tot : Nat) :
    ∀ (n : Nat) (data : List Nat), data.length ≤ n →
    ∀ oseq fnum, fragmentLoop ts fid tot data oseq fnum =
      (List.range (divCeil data.length 1000)).map (fun i =>
        RtpBody.mk ts ((oseq + i) % 2^64) fid ((fnum + i) % 65536) tot
          ((data.drop (1000 * i)).take 1000)) := by
  intro n
  induction n with
  | zero =>
    intro data h oseq fnum
    have hd : data = [] := List.eq_nil_of_length_eq_zero (by omega)
    subst hd
    rw [fragmentLoop_nil]
    simp [divCeil]
  | succ n ih =>
    intro data h oseq fnum
    cases data with
    | nil =>
      rw [fragmentLoop_nil]
      simp [divCeil]
    | cons d rest =>
      rw [fragmentLoop_cons]
      have hdc : divCeil (d :: rest).length 1000 =
          divCeil ((d :: rest).drop 1000).length 1000 + 1 := by
        unfold divCeil
        rw [List.length_drop]
        simp only [List.length_cons]
        omega
      rw [hdc, List.range_succ_eq_map, List.map_cons, List.map_map]
      congr 1
      rw [ih ((d :: rest).drop 1000)
        (by rw [List.length_drop]; simp only [List.length_cons] at h ⊢; omega)
        ((oseq + 1) % 2^64) ((fnum + 1) % 65536)]
      apply List.map_congr_left
      intro i hi
      simp only [Function.comp_apply]
      rw [Nat.mod_add_mod, Nat.mod_add_mod, List.drop_drop]
      have h1 : oseq + 1 + i = oseq + Nat.succ i := by omega
      have h2 : fnum + 1 + i = fnum + Nat.succ i := by omega
      have h3 : 1000 + 1000 * i = 1000 * Nat.succ i := by omega
      rw [h1, h2, h3]

lemma fragment_and_send_data_eq (ts fid oseq : Nat) (M : List Nat)
    (hM : M.length ≤ 65535000) :
    fragment_and_send_data ts fid oseq M =
      (List.range (divCeil M.length 1000)).map (fun i =>
        RtpBody.mk ts ((oseq + i) % 2^64) fid i (divCeil M.length 1000)
          ((M.drop (1000 * i)).take 1000)) := by
  unfold fragment_and_send_data
  have hdcle : divCeil M.length 1000 ≤ 65535 := by
    unfold divCeil
    omega
  have htot : divCeil M.length 1000 % 65536 = divCeil M.length 1000 :=
    Nat.mod_eq_of_lt (by omega)
  rw [htot, fragmentLoop_eq ts fid (divCeil M.length 1000) M.length M
    le_rfl oseq 0]
  apply List.map_congr_left
  intro i hi
  have hi' : i < divCeil M.length 1000 := List.mem_range.mp hi
  have hfrag : (0 + i) % 65536 = i := by
    rw [Nat.zero_add]
    exact Nat.mod_eq_of_lt (by omega)
  rw [hfrag]

lemma chunks_flatten :
    ∀ (n : Nat) (M : List Nat), M.length ≤ 1000 * n →
    ((List.range n).map (fun i =>
      (M.drop (1000 * i)).take 1000)).flatten = M := by
  intro n
  induction n with
  | zero =>
    intro M h
    have hM : M = [] := List.eq_nil_of_length_eq_zero (by omega)
    subst hM
    rfl
  | succ n ih =>
    intro M h
    rw [List.range_succ_eq_map, List.map_cons, List.map_map,
      List.flatten_cons]
    have hcomp : ((fun i => (M.drop (1000 * i)).take 1000) ∘ Nat.succ) =
        (fun i => ((M.drop 1000).drop (1000 * i)).take 1000) := by
      funext i
      simp only [Function.comp_apply]
      rw [List.drop_drop]
      have : 1000 + 1000 * i = 1000 * Nat.succ i := by omega
      rw [this]
    rw [hcomp, ih (M.drop 1000)
      (by rw [List.length_drop]; omega)]
    rw [Nat.mul_zero, List.drop_zero, List.take_append_drop]

/-- Feeding a list of packets to a frame buffer one by one, keeping the
old buffer whenever `add_packet` errors — the receiver arm's behaviour. -/
def addAllPackets (fb : FrameBuffer) (ps : List RtpBody) : FrameBuffer :=
  ps.foldl (fun b p => (b.add_packet p).getD b) fb

lemma addAllPackets_eq (fid n t0 : Nat) :
    ∀ (l init : List RtpBody),
    (∀ p ∈ l, p.frame_id = fid ∧ p.total_fragments = n) →
    (l.map RtpBody.fragment_number ++
      init.map RtpBody.fragment_number).Nodup →
    addAllPackets (FrameBuffer.mk fid n init t0) l =
      FrameBuffer.mk fid n (l.reverse ++ init) t0 := by
  intro l
  induction l with
  | nil =>
    intro init _ _
    unfold addAllPackets
    rw [List.foldl_nil, List.reverse_nil, List.nil_append]
  | cons p l' ih =>
    intro init hall hnd
    have hp := hall p (List.mem_cons_self p l')
    have hnd' : (p.fragment_number ::
        (l'.map RtpBody.fragment_number ++
          init.map RtpBody.fragment_number)).Nodup := by
      simpa only [List.map_cons, List.cons_append] using hnd
    have hpnot := (List.nodup_cons.mp hnd').1
    have hstep : (FrameBuffer.mk fid n init t0).add_packet p =
        some (FrameBuffer.mk fid n (p :: init) t0) := by
      unfold FrameBuffer.add_packet
      rw [if_neg (show ¬ (p.frame_id ≠ (FrameBuffer.mk fid n init t0).frame_id)
        from by simp [hp.1]),
        if_neg (show ¬ (p.total_fragments ≠
          (FrameBuffer.mk fid n init t0).expected_fragments)
        from by simp [hp.2])]
      simp only []
      have hkept : init.filter
          (fun q => q.fragment_number ≠ p.fragment_number) = init := by
        apply List.filter_eq_self.mpr
        intro q hq
        simp only [decide_eq_true_eq]
        intro hqe
        exact hpnot (by
          rw [List.mem_append]
          right
          exact List.mem_map.mpr ⟨q, hq, hqe⟩)
      rw [hkept]
    unfold addAllPackets
    rw [List.foldl_cons]
    have hone : ((FrameBuffer.mk fid n init t0).add_packet p).getD
        (FrameBuffer.mk fid n init t0) =
        FrameBuffer.mk fid n (p :: init) t0 := by
      rw [hstep]
      rfl
    rw [hone]
    have hih := ih (p :: init) (fun q hq => hall q (List.mem_cons_of_mem p hq))
      (by
        rw [List.map_cons]
        exact List.nodup_middle.mpr hnd')
    unfold addAllPackets at hih
    rw [hih, List.reverse_cons, List.append_assoc, List.singleton_append]

lemma perm_sorted_strict_eq (f : RtpBody → Nat) :
    ∀ (xs ys : List RtpBody), xs.Perm ys →
      xs.Pairwise (fun a b => f a ≤ f b) →
      ys.Pairwise (fun a b => f a < f b) → xs = ys := by
  intro xs
  induction xs with
  | nil =>
    intro ys hp _ _
    exact (hp.symm.eq_nil).symm
  | cons x xs' ih =>
    intro ys hp hx hy
    cases ys with
    | nil => exact absurd hp.eq_nil (List.cons_ne_nil x xs')
    | cons y ys' =>
      have hxy : x = y := by
        by_contra hne
        have hxmem : x ∈ y :: ys' := hp.subset (List.mem_cons_self x xs')
        have hxys' : x ∈ ys' := by
          rcases List.mem_cons.mp hxmem with he | hm
          · exact absurd he hne
          · exact hm
        have hymem : y ∈ x :: xs' := hp.symm.subset (List.mem_cons_self y ys')
        have hyxs' : y ∈ xs' := by
          rcases List.mem_cons.mp hymem with he | hm
          · exact absurd he.symm hne
          · exact hm
        have h1 : f x ≤ f y := (List.pairwise_cons.mp hx).1 y hyxs'
        have h2 : f y < f x := (List.pairwise_cons.mp hy).1 x hxys'
        omega
      subst hxy
      have hp' : xs'.Perm ys' := hp.cons_inv
      rw [ih ys' hp' (List.pairwise_cons.mp hx).2 (List.pairwise_cons.mp hy).2]

instance : IsTotal RtpBody
    (fun a b => a.fragment_number ≤ b.fragment_number) :=
  ⟨fun a b => Nat.le_total a.fragment_number b.fragment_number⟩

instance : IsTrans RtpBody
    (fun a b => a.fragment_number ≤ b.fragment_number) :=
  ⟨fun _ _ _ h1 h2 => Nat.le_trans h1 h2⟩

lemma frameBuffer_new_mk (a b c : Nat) :
    FrameBuffer.new a b c = FrameBuffer.mk a b [] c := rfl

lemma frameBuffer_packets_mk (a b : Nat) (c : List RtpBody) (d : Nat) :
    (FrameBuffer.mk a b c d).packets = c := rfl

lemma frameBuffer_expected_mk (a b : Nat) (c : List RtpBody) (d : Nat) :
    (FrameBuffer.mk a b c d).expected_fragments = b := rfl

lemma rtp_total_mk (a b c d e : Nat) (f : List Nat) :
    (RtpBody.mk a b c d e f).total_fragments = e := rfl

/-- C3 (amended, requiring the message no longer than 65535000 bytes so
that `total_fragments = len.div_ceil(1000) as u16` does not wrap):
fragmentation splits M into ceil(|M|/1000) Rtp fragments — fragment i
carries bytes [1000·i, 1000·(i+1)) of M (so each is at most 1000 bytes),
the shared frame id, total, and sequence number (out_seq + i) mod 2^64 —
and feeding the fragments to a FrameBuffer in any order makes it complete
exactly when all of them are in, at which point `reconstruct_data`
returns M. -/
theorem fragmentation_reassembly (ts fid oseq : Nat) (M : List Nat)
    (hM : M.length ≤ 65535000) :
    fragment_and_send_data ts fid oseq M =
      (List.range (divCeil M.length 1000)).map (fun i =>
        RtpBody.mk ts ((oseq + i) % 2^64) fid i (divCeil M.length 1000)
          ((M.drop (1000 * i)).take 1000))
    ∧ (∀ p ∈ fragment_and_send_data ts fid oseq M, p.data.length ≤ 1000)
    ∧ ∀ l, l.Perm (fragment_and_send_data ts fid oseq M) →
        (addAllPackets (FrameBuffer.new fid (divCeil M.length 1000) 0)
            l).is_complete = true
        ∧ (addAllPackets (FrameBuffer.new fid (divCeil M.length 1000) 0)
            l).reconstruct_data = some M
        ∧ ∀ k, k < l.length →
            (addAllPackets (FrameBuffer.new fid (divCeil M.length 1000) 0)
              (l.take k)).is_complete = false := by
  have hfs := fragment_and_send_data_eq ts fid oseq M hM
  refine ⟨hfs, ?_, ?_⟩
  · intro p hp
    rw [hfs] at hp
    rcases List.mem_map.mp hp with ⟨i, hi, rfl⟩
    exact List.length_take_le 1000 _
  · intro l hperm
    have hmapfrag : (fragment_and_send_data ts fid oseq M).map
        RtpBody.fragment_number = List.range (divCeil M.length 1000) := by
      rw [hfs, List.map_map]
      have hid : (RtpBody.fragment_number ∘ (fun i =>
          RtpBody.mk ts ((oseq + i) % 2^64) fid i (divCeil M.length 1000)
            ((M.drop (1000 * i)).take 1000))) = id := by
        funext i
        rfl
      rw [hid, List.map_id]
    have hndl : (l.map RtpBody.fragment_number).Nodup := by
      refine ((hperm.map RtpBody.fragment_number).nodup_iff).mpr ?_
      rw [hmapfrag]
      exact List.nodup_range _
    have hallL : ∀ p ∈ l, p.frame_id = fid ∧
        p.total_fragments = divCeil M.length 1000 := by
      intro p hp
      have hp' := hperm.subset hp
      rw [hfs] at hp'
      rcases List.mem_map.mp hp' with ⟨i, hi, rfl⟩
      exact ⟨rfl, rfl⟩
    have hlenl : l.length = divCeil M.length 1000 := by
      rw [hperm.length_eq, hfs, List.length_map, List.length_range]
    have haddl := addAllPackets_eq fid (divCeil M.length 1000) 0 l []
      hallL (by rw [List.map_nil, List.append_nil]; exact hndl)
    have hpackets : (addAllPackets
        (FrameBuffer.new fid (divCeil M.length 1000) 0) l).packets =
        l.reverse := by
      rw [frameBuffer_new_mk, haddl, frameBuffer_packets_mk, List.append_nil]
    have hcomp : (addAllPackets
        (FrameBuffer.new fid (divCeil M.length 1000) 0) l).is_complete =
        true := by
      unfold FrameBuffer.is_complete
      rw [hpackets, frameBuffer_new_mk, haddl, frameBuffer_expected_mk,
        List.length_reverse, hlenl]
      exact beq_self_eq_true _
    refine ⟨hcomp, ?_, ?_⟩
    · have hstrict : ((List.range (divCeil M.length 1000)).map (fun i =>
          RtpBody.mk ts ((oseq + i) % 2^64) fid i (divCeil M.length 1000)
            ((M.drop (1000 * i)).take 1000))).Pairwise
          (fun a b => a.fragment_number < b.fragment_number) := by
        rw [List.pairwise_map]
        exact List.Pairwise.imp (fun h => h) (List.pairwise_lt_range _)
      have hpermS : (l.reverse.insertionSort
          (fun a b => a.fragment_number ≤ b.fragment_number)).Perm
          (fragment_and_send_data ts fid oseq M) :=
        (List.perm_insertionSort _ l.reverse).trans
          ((List.reverse_perm l).trans hperm)
      have heq : l.reverse.insertionSort
          (fun a b => a.fragment_number ≤ b.fragment_number) =
          fragment_and_send_data ts fid oseq M := by
        apply perm_sorted_strict_eq RtpBody.fragment_number _ _ hpermS
        · exact List.sorted_insertionSort _ l.reverse
        · rw [hfs]
          exact hstrict
      have hchunks : (((fragment_and_send_data ts fid oseq M).map
          RtpBody.data)).flatten = M := by
        rw [hfs, List.map_map]
        have hcd : (RtpBody.data ∘ (fun i =>
            RtpBody.mk ts ((oseq + i) % 2^64) fid i (divCeil M.length 1000)
              ((M.drop (1000 * i)).take 1000))) =
            (fun i => (M.drop (1000 * i)).take 1000) := by
          funext i
          rfl
        rw [hcd]
        exact chunks_flatten (divCeil M.length 1000) M
          (by unfold divCeil; omega)
      unfold FrameBuffer.reconstruct_data
      rw [if_neg (not_not_intro hcomp)]
      rw [hpackets, heq, hchunks]
    · intro k hk
      have hallK : ∀ p ∈ l.take k, p.frame_id = fid ∧
          p.total_fragments = divCeil M.length 1000 :=
        fun p hp => hallL p (List.mem_of_mem_take hp)
      have hndK : ((l.take k).map RtpBody.fragment_number).Nodup := by
        rw [List.map_take]
        exact List.Nodup.sublist (List.take_sublist k _) hndl
      have haddk := addAllPackets_eq fid (divCeil M.length 1000) 0
        (l.take k) [] hallK
        (by rw [List.map_nil, List.append_nil]; exact hndK)
      unfold FrameBuffer.is_complete
      rw [frameBuffer_new_mk, haddk, frameBuffer_packets_mk,
        frameBuffer_expected_mk, List.append_nil, List.length_reverse,
        List.length_take]
      rw [beq_eq_false_iff_ne]
      omega

/-- C3 counterexample (to the unamended claim): for the 65536000-byte
message, ceil(|M|/1000) = 65536 but the `as u16` cast makes the stored
`total_fragments` 0 — and a frame buffer expecting 0 fragments reports
itself complete before any fragment arrives. -/
theorem fragmentation_reassembly_cex :
    divCeil (List.replicate 65536000 (0 : Nat)).length 1000 = 65536
    ∧ ((fragment_and_send_data 0 0 0
        (List.replicate 65536000 0)).headD
          (RtpBody.mk 0 0 0 0 1 [])).total_fragments = 0
    ∧ (FrameBuffer.new 77 0 0).is_complete = true := by
  have hrepl : List.replicate 65536000 (0 : Nat) =
      0 :: List.replicate 65535999 0 := by
    rw [show (65536000 : Nat) = 65535999 + 1 from rfl, List.replicate_succ]
  refine ⟨?_, ?_, ?_⟩
  · rw [List.length_replicate]
    decide
  · rw [hrepl]
    unfold fragment_and_send_data
    rw [fragmentLoop_cons, List.headD_cons, rtp_total_mk]
    rw [List.length_cons, List.length_replicate]
    decide
  · decide

/-- Witness for `fragmentation_reassembly`: the two-byte message [1, 2]
at timestamp 5, frame id 7, out_seq 9. -/
theorem fragmentation_reassembly_witness :
    ([1, 2] : List Nat).length ≤ 65535000
    ∧ (fragment_and_send_data 5 7 9 [1, 2] =
        (List.range (divCeil ([1, 2] : List Nat).length 1000)).map (fun i =>
          RtpBody.mk 5 ((9 + i) % 2^64) 7 i
            (divCeil ([1, 2] : List Nat).length 1000)
            ((([1, 2] : List Nat).drop (1000 * i)).take 1000))
      ∧ (∀ p ∈ fragment_and_send_data 5 7 9 [1, 2], p.data.length ≤ 1000)
      ∧ ∀ l, l.Perm (fragment_and_send_data 5 7 9 [1, 2]) →
          (addAllPackets
              (FrameBuffer.new 7 (divCeil ([1, 2] : List Nat).length 1000) 0)
              l).is_complete = true
          ∧ (addAllPackets
              (FrameBuffer.new 7 (divCeil ([1, 2] : List Nat).length 1000) 0)
              l).reconstruct_data = some [1, 2]
          ∧ ∀ k, k < l.length →
              (addAllPackets
                (FrameBuffer.new 7
                  (divCeil ([1, 2] : List Nat).length 1000) 0)
                (l.take k)).is_complete = false) :=
  ⟨by decide, fragmentation_reassembly 5 7 9 [1, 2] (by decide)⟩
